import Mathlib

/- Verification development for the Yutani compositor
   (src/userspace/gui/compositor/compositor.c).

   The compositor state and its operations are shallowly embedded below.
   Window structs live on a heap keyed by wid (the C code never frees a
   window struct), hashmaps become association lists, the toaru list type
   becomes List with insertion at the tail (list_insert appends; foreach
   walks head to tail, foreachr walks tail to head), shared memory becomes
   the list of currently allocated buffer keys, and every pex_send becomes
   an entry in a log of outbound messages.  Machine integers are modelled
   as Int (no arithmetic here overflows on the inputs the claims concern),
   and the truncating double math of the rotation transforms is modelled
   over the reals with explicit truncation toward zero. -/

namespace Yutani

set_option maxHeartbeats 1600000
set_option linter.unusedVariables false

/-- Modelled from the spec: reserved z sentinel for the BOTTOM tier
(section 6 of the spec; the header that defines it is not under src). -/
def YUTANI_ZORDER_BOTTOM : Nat := 0xFFFF

/-- Modelled from the spec: reserved z sentinel for the TOP tier. -/
def YUTANI_ZORDER_TOP : Nat := 0xFFFE

/-- Modelled from the spec: fixed sub-pixel multiplier for mouse
coordinates.  The value is not given in src; 3 is consistent with the
times-3 motion scaling in handle_mouse_event. -/
def MOUSE_SCALE : Int := 3

/-- Modelled from the spec: mouse button masks from the missing mouse
header; distinct bits. -/
def YUTANI_MOUSE_BUTTON_LEFT : Nat := 1

/-- Modelled from the spec: right mouse button mask. -/
def YUTANI_MOUSE_BUTTON_RIGHT : Nat := 2

/-- Modelled from the spec: middle mouse button mask. -/
def YUTANI_MOUSE_BUTTON_MIDDLE : Nat := 4

/-- Modelled from the spec: interaction state NORMAL. -/
def YUTANI_MOUSE_STATE_NORMAL : Nat := 0

/-- Modelled from the spec: interaction state MOVING. -/
def YUTANI_MOUSE_STATE_MOVING : Nat := 1

/-- Modelled from the spec: interaction state DRAGGING. -/
def YUTANI_MOUSE_STATE_DRAGGING : Nat := 2

/-- Modelled from the spec: interaction state RESIZING. -/
def YUTANI_MOUSE_STATE_RESIZING : Nat := 3

/-- Modelled from the spec: animation mode NONE (the C code tests
anim_mode for truth, so NONE must be 0). -/
def YUTANI_EFFECT_NONE : Nat := 0

/-- Modelled from the spec: animation mode FADE_IN. -/
def YUTANI_EFFECT_FADE_IN : Nat := 1

/-- Modelled from the spec: animation mode FADE_OUT. -/
def YUTANI_EFFECT_FADE_OUT : Nat := 2

/-- Modelled from the spec: modifier bit for the left control key. -/
def KEY_MOD_LEFT_CTRL : Nat := 1

/-- Modelled from the spec: modifier bit for the left shift key. -/
def KEY_MOD_LEFT_SHIFT : Nat := 2

/-- Modelled from the spec: modifier bit for the left alt key. -/
def KEY_MOD_LEFT_ALT : Nat := 4

/-- Modelled from the spec: modifier bit for the left super key. -/
def KEY_MOD_LEFT_SUPER : Nat := 8

/-- Modelled from the spec: key action code for a key press. -/
def KEY_ACTION_DOWN : Nat := 1

/-- Modelled from the spec: scancode for F10 (value not in src, only
distinctness from the other codes matters). -/
def KEY_F10 : Nat := 1010

/-- Modelled from the spec: scancode for the left arrow. -/
def KEY_ARROW_LEFT : Nat := 1001

/-- Modelled from the spec: scancode for the right arrow. -/
def KEY_ARROW_RIGHT : Nat := 1002

/-- Modelled from the spec: scancode for the up arrow. -/
def KEY_ARROW_UP : Nat := 1003

/-- Modelled from the spec: scancode for the down arrow. -/
def KEY_ARROW_DOWN : Nat := 1004

/-- Modelled from the spec: bind response PASS. -/
def YUTANI_BIND_PASS : Nat := 0

/-- Modelled from the spec: bind response STEAL. -/
def YUTANI_BIND_STEAL : Nat := 1

/-- Modelled from the spec: the fixed message magic every inbound message
must carry. -/
def YUTANI_MSG__MAGIC : Nat := 0xABAD1DEA

/-- Modelled from the spec: wire tag distinguishing a RESIZE_OFFER. -/
def YUTANI_MSG_RESIZE_OFFER : Nat := 21

/-- Modelled from the spec: wire tag distinguishing a RESIZE_BUFID. -/
def YUTANI_MSG_RESIZE_BUFID : Nat := 22

/-- Modelled from the spec: mouse event type RELATIVE. -/
def YUTANI_MOUSE_EVENT_TYPE_RELATIVE : Nat := 0

/-- Modelled from the spec: mouse event type ABSOLUTE. -/
def YUTANI_MOUSE_EVENT_TYPE_ABSOLUTE : Nat := 1

/-- Modelled from the spec: window mouse event kind DOWN. -/
def YUTANI_MOUSE_EVENT_DOWN : Nat := 0

/-- Modelled from the spec: window mouse event kind MOVE. -/
def YUTANI_MOUSE_EVENT_MOVE : Nat := 1

/-- Modelled from the spec: window mouse event kind ENTER. -/
def YUTANI_MOUSE_EVENT_ENTER : Nat := 2

/-- Modelled from the spec: window mouse event kind LEAVE. -/
def YUTANI_MOUSE_EVENT_LEAVE : Nat := 3

/-- Modelled from the spec: window mouse event kind CLICK. -/
def YUTANI_MOUSE_EVENT_CLICK : Nat := 4

/-- Modelled from the spec: window mouse event kind RAISE. -/
def YUTANI_MOUSE_EVENT_RAISE : Nat := 5

/-- Modelled from the spec: window mouse event kind DRAG. -/
def YUTANI_MOUSE_EVENT_DRAG : Nat := 6

/-- Key event payload (action, modifier mask, keycode), from the key
event struct used by handle_key_event. -/
structure KeyEvent where
  action : Nat
  modifiers : Nat
  keycode : Nat
  deriving DecidableEq, Repr

/-- Keyboard state mirrored into kbd_state; only the alt flag is
consulted by the compositor, so only it is modelled. -/
structure KeyEventState where
  k_alt : Bool
  deriving DecidableEq, Repr

/-- Mouse device packet: button mask and the two reported differences. -/
structure MousePacket where
  buttons : Nat
  x_difference : Int
  y_difference : Int
  deriving DecidableEq, Repr

/-- Damage rectangle in device coordinates (yutani_damage_rect_t). -/
structure DamageRect where
  x : Int
  y : Int
  width : Int
  height : Int
  deriving DecidableEq, Repr

/-- Server-side window record (yutani_server_window_t).  The pixel
buffer is modelled by the key of the shm region backing it (field
buffer) together with an abstract view of its contents: alphaAt x y is
the alpha byte of the pixel at window coordinates (x, y), which is what
the flat access buffer[width * y + x] reads in check_top_at. -/
structure SWindow where
  wid : Nat
  owner : Nat
  x : Int
  y : Int
  width : Int
  height : Int
  z : Nat
  rotation : Int
  alpha_threshold : Nat
  bufid : Nat
  newbufid : Nat
  buffer : Nat
  newbuffer : Nat
  anim_mode : Nat
  anim_start : Nat
  client_flags : Nat
  client_offsets : List Nat
  client_length : Nat
  client_strings : Nat
  alphaAt : Int → Int → Nat

/-- Outbound messages built with yutani_msg_build_* and handed to
pex_send or pex_broadcast. -/
inductive MsgOut where
  | welcome (width height : Int)
  | window_init (wid : Nat) (width height : Int) (bufid : Nat)
  | notify
  | focus_change (wid : Nat) (focused : Nat)
  | resize (rtype : Nat) (wid : Nat) (width height : Int) (bufid : Nat)
  | key (wid : Int) (ev : KeyEvent) (st : KeyEventState)
  | window_mouse (wid : Nat) (x y old_x old_y : Int) (buttons : Nat) (kind : Nat)
  | advertise (wid : Nat) (flags : Nat) (size : Nat) (strings : Nat)
  | session_end
  deriving DecidableEq, Repr

/-- One logged transport send: destination address (none encodes a
pex_broadcast) and the message. -/
structure Sent where
  dest : Option Nat
  msg : MsgOut
  deriving DecidableEq, Repr

/-- Inbound client messages, one constructor per case of the receive
switch in main. -/
inductive YMsg where
  | hello
  | window_new (width height : Int)
  | flip (wid : Nat)
  | flip_region (wid : Nat) (x y width height : Int)
  | key_event (ev : KeyEvent) (st : KeyEventState)
  | mouse_event (mtype : Nat) (packet : MousePacket)
  | window_move (wid : Nat) (x y : Int)
  | window_close (wid : Nat)
  | window_stack (wid : Nat) (z : Nat)
  | resize_request (wid : Nat) (width height : Int)
  | resize_offer (wid : Nat) (width height : Int)
  | resize_accept (wid : Nat) (width height : Int)
  | resize_done (wid : Nat) (width height : Int)
  | query_windows
  | subscribe
  | unsubscribe
  | window_advertise (wid : Nat) (flags : Nat) (offsets : List Nat) (size : Nat) (strings : Nat)
  | session_end
  | window_focus (wid : Nat)
  | key_bind (key : Nat) (modifiers : Nat) (response : Nat)
  | window_drag_start (wid : Nat)
  | window_update_shape (wid : Nat) (set_shape : Nat)
  | unknown (t : Nat)

/-- One packet from pex_listen: either a zero-length packet (peer died)
or a message with its magic field. -/
inductive Packet where
  | dead (source : Nat)
  | msg (source : Nat) (magic : Nat) (m : YMsg)

/-- The compositor singleton (yutani_globals_t), restricted to the state
the protocol loop reads and writes. -/
structure YutaniGlobals where
  width : Int
  height : Int
  heap : List (Nat × SWindow)
  windows : List Nat
  wids_to_windows : List Nat
  clients_to_windows : List (Nat × List Nat)
  mid_zs : List Nat
  bottom_z : Option Nat
  top_z : Option Nat
  window_subscribers : List Nat
  key_binds : List (Nat × (Nat × Nat))
  focused_window : Option Nat
  old_hover_window : Option Nat
  mouse_x : Int
  mouse_y : Int
  mouse_state : Nat
  mouse_window : Option Nat
  mouse_init_x : Int
  mouse_init_y : Int
  mouse_win_x : Int
  mouse_win_y : Int
  mouse_click_x : Int
  mouse_click_y : Int
  mouse_drag_button : Nat
  mouse_moved : Nat
  resizing_window : Option Nat
  resizing_w : Int
  resizing_h : Int
  kbd_state : KeyEventState
  tick_count : Nat
  next_wid : Nat
  next_bufid : Nat
  shm : List Nat
  update_list : List DamageRect
  sent : List Sent
  debug_shapes : Nat
  debug_bounds : Nat

/-- C integer division (truncation toward zero), as used for all the
signed divisions in the compositor. -/
def cdiv (a b : Int) : Int := Int.tdiv a b

/-- Conversion to uint16_t as performed at calls whose parameter has
that type (the hit-test coordinates). -/
def u16 (a : Int) : Int := a % 65536

/-- Truncation of a real toward zero, the behaviour of the C cast from
double to int32_t. -/
noncomputable def truncR (r : ℝ) : Int := if 0 ≤ r then ⌊r⌋ else ⌈r⌉

/-- Heap lookup by wid (dereference of a window pointer). -/
def lookupWin : List (Nat × SWindow) → Nat → Option SWindow
  | [], _ => none
  | (k, w) :: t, wid => if k = wid then some w else lookupWin t wid

/-- Heap update of the first entry with the given wid (mutation through
a window pointer). -/
def setWinHeap : List (Nat × SWindow) → Nat → (SWindow → SWindow) → List (Nat × SWindow)
  | [], _, _ => []
  | (k, w) :: t, wid, f => if k = wid then (k, f w) :: t else (k, w) :: setWinHeap t wid f

/-- Key-set update for a hashmap modelled as its key list: hashmap_set
adds the key when absent. -/
def addKey (l : List Nat) (k : Nat) : List Nat := if k ∈ l then l else l ++ [k]

/-- Lookup in the clients-to-windows hashmap. -/
def lookupClient : List (Nat × List Nat) → Nat → Option (List Nat)
  | [], _ => none
  | (k, v) :: t, key => if k = key then some v else lookupClient t key

/-- Update or add an entry in the clients-to-windows hashmap. -/
def setClient : List (Nat × List Nat) → Nat → List Nat → List (Nat × List Nat)
  | [], key, v => [(key, v)]
  | (k, w) :: t, key, v => if k = key then (k, v) :: t else (k, w) :: setClient t key v

/-- Remove an entry from the clients-to-windows hashmap. -/
def removeClient : List (Nat × List Nat) → Nat → List (Nat × List Nat)
  | [], _ => []
  | (k, v) :: t, key => if k = key then t else (k, v) :: removeClient t key

/-- Lookup in the key-bind hashmap. -/
def lookupBind : List (Nat × (Nat × Nat)) → Nat → Option (Nat × Nat)
  | [], _ => none
  | (k, v) :: t, key => if k = key then some v else lookupBind t key

/-- Update or add an entry in the key-bind hashmap (both branches of
add_key_bind store the same fields). -/
def setBind : List (Nat × (Nat × Nat)) → Nat → (Nat × Nat) → List (Nat × (Nat × Nat))
  | [], key, v => [(key, v)]
  | (k, w) :: t, key, v => if k = key then (k, v) :: t else (k, w) :: setBind t key v

/-- Window lookup through the wids hashmap: hashmap_get returns NULL
for unknown wids, otherwise the stored pointer. -/
def hashGet (yg : YutaniGlobals) (wid : Nat) : Option SWindow :=
  if wid ∈ yg.wids_to_windows then lookupWin yg.heap wid else none

/-- Dereference of a window pointer held outside the hashmap (tier
slots, focus, interaction state): the struct is on the heap even after
hashmap_remove, since the C code never frees it. -/
def getWinH (yg : YutaniGlobals) (wid : Nat) : Option SWindow :=
  lookupWin yg.heap wid

/-- Heap mutation through a window pointer. -/
def setWin (yg : YutaniGlobals) (wid : Nat) (f : SWindow → SWindow) : YutaniGlobals :=
  { yg with heap := setWinHeap yg.heap wid f }

/-- device_to_window (compositor.c lines 126-144): subtract the window
origin; when the window is rotated, rotate by the negated angle about
the window center, truncating the double results toward zero. -/
noncomputable def device_to_window (w : SWindow) (x y : Int) : Int × Int :=
  let ox := x - w.x
  let oy := y - w.y
  if w.rotation = 0 then (ox, oy) else
  let cx := cdiv w.width 2
  let cy := cdiv w.height 2
  let tx : ℝ := (ox : ℝ) - (cx : ℝ)
  let ty : ℝ := (oy : ℝ) - (cy : ℝ)
  let s : ℝ := Real.sin ((-Real.pi) * ((w.rotation : ℝ) / 180))
  let c : ℝ := Real.cos ((-Real.pi) * ((w.rotation : ℝ) / 180))
  (truncR (tx * c - ty * s) + cx, truncR (tx * s + ty * c) + cy)

/-- window_to_device (compositor.c lines 146-165): the inverse map,
rotating by the positive angle and adding the window origin back. -/
noncomputable def window_to_device (w : SWindow) (x y : Int) : Int × Int :=
  if w.rotation = 0 then (w.x + x, w.y + y) else
  let cx := cdiv w.width 2
  let cy := cdiv w.height 2
  let tx : ℝ := (x : ℝ) - (cx : ℝ)
  let ty : ℝ := (y : ℝ) - (cy : ℝ)
  let s : ℝ := Real.sin (Real.pi * ((w.rotation : ℝ) / 180))
  let c : ℝ := Real.cos (Real.pi * ((w.rotation : ℝ) / 180))
  (truncR (tx * c - ty * s) + cx + w.x, truncR (tx * s + ty * c) + cy + w.y)

/-- device_to_window through a possibly NULL pointer: the C function
returns at once on NULL, leaving the two out-parameters at their prior
values, which the model threads in explicitly. -/
noncomputable def device_to_window_opt (w : Option SWindow) (x y old_x old_y : Int) : Int × Int :=
  match w with
  | none => (old_x, old_y)
  | some win => device_to_window win x y

/-- Log one pex_send. -/
def sendTo (yg : YutaniGlobals) (dest : Nat) (m : MsgOut) : YutaniGlobals :=
  { yg with sent := yg.sent ++ [⟨some dest, m⟩] }

/-- Log one pex_broadcast. -/
def broadcastMsg (yg : YutaniGlobals) (m : MsgOut) : YutaniGlobals :=
  { yg with sent := yg.sent ++ [⟨none, m⟩] }

/-- Enqueue one damage rectangle (list_insert into update_list under the
update-list lock). -/
def pushDamage (yg : YutaniGlobals) (r : DamageRect) : YutaniGlobals :=
  { yg with update_list := yg.update_list ++ [r] }

/-- Damage rectangle computed by mark_window (compositor.c lines
913-949): the window rectangle when unrotated, otherwise the axis
aligned bounding box of the four rotated corners. -/
noncomputable def damageRectFor (w : SWindow) : DamageRect :=
  if w.rotation = 0 then ⟨w.x, w.y, w.width, w.height⟩ else
  let ul := window_to_device w 0 0
  let ll := window_to_device w 0 w.height
  let ur := window_to_device w w.width 0
  let lr := window_to_device w w.width w.height
  let left_bound := min (min ul.1 ll.1) (min ur.1 lr.1)
  let top_bound := min (min ul.2 ll.2) (min ur.2 lr.2)
  let right_bound := max (max ul.1 ll.1) (max ur.1 lr.1)
  let bottom_bound := max (max ul.2 ll.2) (max ur.2 lr.2)
  ⟨left_bound, top_bound, right_bound - left_bound, bottom_bound - top_bound⟩

/-- mark_window: enqueue the damage rectangle of a window. -/
noncomputable def mark_window (yg : YutaniGlobals) (w : SWindow) : YutaniGlobals :=
  pushDamage yg (damageRectFor w)

/-- mark_window through a window pointer held as a wid. -/
noncomputable def markWid (yg : YutaniGlobals) (wid : Nat) : YutaniGlobals :=
  match getWinH yg wid with
  | some w => mark_window yg w
  | none => yg

/-- Damage rectangle computed by mark_window_relative (lines 951-987). -/
noncomputable def damageRectRelFor (w : SWindow) (x y width height : Int) : DamageRect :=
  if w.rotation = 0 then ⟨w.x + x, w.y + y, width, height⟩ else
  let ul := window_to_device w x y
  let ll := window_to_device w x (y + height)
  let ur := window_to_device w (x + width) y
  let lr := window_to_device w (x + width) (y + height)
  let left_bound := min (min ul.1 ll.1) (min ur.1 lr.1)
  let top_bound := min (min ul.2 ll.2) (min ur.2 lr.2)
  let right_bound := max (max ul.1 ll.1) (max ur.1 lr.1)
  let bottom_bound := max (max ul.2 ll.2) (max ur.2 lr.2)
  ⟨left_bound, top_bound, right_bound - left_bound, bottom_bound - top_bound⟩

/-- mark_window_relative: enqueue damage for a window-local rectangle. -/
noncomputable def mark_window_relative (yg : YutaniGlobals) (w : SWindow) (x y width height : Int) : YutaniGlobals :=
  pushDamage yg (damageRectRelFor w x y width height)

/-- unorder_window (lines 167-183): save the old z, overwrite the z
field with the unsigned short value of -1 (65535), then clear the slot
the saved z names: the BOTTOM slot, the TOP slot, or the first
occurrence in the middle list (list_find plus list_delete). -/
def unorder_window (yg : YutaniGlobals) (wid : Nat) : YutaniGlobals :=
  match getWinH yg wid with
  | none => yg
  | some w =>
    let index := w.z
    let yg1 := setWin yg wid (fun ww => { ww with z := 65535 })
    if index = YUTANI_ZORDER_BOTTOM then { yg1 with bottom_z := none }
    else if index = YUTANI_ZORDER_TOP then { yg1 with top_z := none }
    else if wid ∈ yg1.mid_zs then { yg1 with mid_zs := yg1.mid_zs.erase wid } else yg1

/-- reorder_window (lines 185-223): unorder, store the new z, then
insert into the tier the new z names; for an occupied BOTTOM or TOP
slot the previous occupant is unordered and the slot overwritten. -/
def reorder_window (yg : YutaniGlobals) (wid : Nat) (new_zed : Nat) : YutaniGlobals :=
  let yg1 := unorder_window yg wid
  let yg2 := setWin yg1 wid (fun ww => { ww with z := new_zed })
  if new_zed ≠ YUTANI_ZORDER_TOP ∧ new_zed ≠ YUTANI_ZORDER_BOTTOM then
    { yg2 with mid_zs := yg2.mid_zs ++ [wid] }
  else if new_zed = YUTANI_ZORDER_TOP then
    let yg3 :=
      match yg2.top_z with
      | some v => unorder_window yg2 v
      | none => yg2
    { yg3 with top_z := some wid }
  else
    let yg3 :=
      match yg2.bottom_z with
      | some v => unorder_window yg2 v
      | none => yg2
    { yg3 with bottom_z := some wid }

/-- make_top (lines 225-236): move a middle window to the tail of the
middle list (frontmost among middles); BOTTOM and TOP are untouched. -/
def make_top (yg : YutaniGlobals) (wid : Nat) : YutaniGlobals :=
  match getWinH yg wid with
  | none => yg
  | some w =>
    if w.z = YUTANI_ZORDER_BOTTOM then yg
    else if w.z = YUTANI_ZORDER_TOP then yg
    else if wid ∈ yg.mid_zs then { yg with mid_zs := yg.mid_zs.erase wid ++ [wid] } else yg

/-- notify_subscribers (lines 1063-1070): send one NOTIFY to every
entry of the subscriber list, in list order. -/
def notify_subscribers (yg : YutaniGlobals) : YutaniGlobals :=
  { yg with sent := yg.sent ++ yg.window_subscribers.map (fun s => ⟨some s, MsgOut.notify⟩) }

/-- set_focused_window (lines 238-262). -/
def set_focused_window (yg : YutaniGlobals) (w : Option Nat) : YutaniGlobals :=
  if w = yg.focused_window then yg
  else
    let yg1 :=
      match yg.focused_window with
      | some f =>
        match getWinH yg f with
        | some fw => sendTo yg fw.owner (MsgOut.focus_change f 0)
        | none => yg
      | none => yg
    let yg2 := { yg1 with focused_window := w }
    let yg3 :=
      match w with
      | some wid =>
        let yga :=
          match getWinH yg2 wid with
          | some win => sendTo yg2 win.owner (MsgOut.focus_change wid 1)
          | none => yg2
        make_top yga wid
      | none => { yg2 with focused_window := yg2.bottom_z }
    notify_subscribers yg3

/-- get_focused (lines 264-267). -/
def get_focused (yg : YutaniGlobals) : Option Nat :=
  match yg.focused_window with
  | some f => some f
  | none => yg.bottom_z

/-- check_top_at (lines 539-550): NULL windows never match; otherwise
map the point into window coordinates, reject when outside the window
rectangle, then accept exactly when the alpha byte at that pixel is at
least the window alpha threshold. -/
noncomputable def check_top_at (yg : YutaniGlobals) (w : Option Nat) (x y : Int) : Option Nat :=
  match w with
  | none => none
  | some wid =>
    match getWinH yg wid with
    | none => none
    | some win =>
      let p := device_to_window win x y
      if p.1 < 0 ∨ p.1 ≥ win.width ∨ p.2 < 0 ∨ p.2 ≥ win.height then none
      else if win.alpha_threshold ≤ win.alphaAt p.1 p.2 then some wid else none

/-- top_at (lines 552-560): test the TOP window, then the middle list
from its tail to its head (foreachr), then the BOTTOM window, returning
the first window that passes check_top_at. -/
noncomputable def top_at (yg : YutaniGlobals) (x y : Int) : Option Nat :=
  if (check_top_at yg yg.top_z x y).isSome then yg.top_z
  else
    match yg.mid_zs.reverse.find? (fun wid => (check_top_at yg (some wid) x y).isSome) with
    | some w => some w
    | none =>
      if (check_top_at yg yg.bottom_z x y).isSome then yg.bottom_z else none

/-- set_focused_at (lines 562-565); the coordinates are converted to
uint16_t at the top_at call. -/
noncomputable def set_focused_at (yg : YutaniGlobals) (x y : Int) : YutaniGlobals :=
  set_focused_window yg (top_at yg (u16 x) (u16 y))

/-- server_window_create (lines 269-315): allocate the next wid,
register the window everywhere, zero-fill a fresh shm buffer (so every
alpha byte starts at 0), and append to the middle list with z = 1. -/
def server_window_create (yg : YutaniGlobals) (width height : Int) (owner : Nat) : YutaniGlobals × Nat :=
  let wid := yg.next_wid
  let yg1 := { yg with next_wid := yg.next_wid + 1 }
  let yg2 := { yg1 with windows := yg1.windows ++ [wid],
                        wids_to_windows := addKey yg1.wids_to_windows wid }
  let client_list := (lookupClient yg2.clients_to_windows owner).getD []
  let yg3 := { yg2 with clients_to_windows := setClient yg2.clients_to_windows owner (client_list ++ [wid]) }
  let bufid := yg3.next_bufid
  let yg4 := { yg3 with next_bufid := yg3.next_bufid + 1 }
  let win : SWindow :=
    { wid := wid, owner := owner, x := 0, y := 0, z := 1,
      width := width, height := height, bufid := bufid, rotation := 0,
      newbufid := 0, buffer := bufid, newbuffer := 0,
      client_flags := 0, client_offsets := [0, 0, 0, 0, 0], client_length := 0,
      client_strings := 0,
      anim_mode := YUTANI_EFFECT_FADE_IN, anim_start := yg4.tick_count,
      alpha_threshold := 0,
      alphaAt := fun _ _ => 0 }
  let yg5 := { yg4 with heap := yg4.heap ++ [(wid, win)] }
  let yg6 := { yg5 with shm := addKey yg5.shm bufid }
  let yg7 := { yg6 with mid_zs := yg6.mid_zs ++ [wid] }
  (yg7, wid)

/-- server_window_update_shape (lines 317-319). -/
def server_window_update_shape (yg : YutaniGlobals) (wid : Nat) (s : Nat) : YutaniGlobals :=
  setWin yg wid (fun w => { w with alpha_threshold := s })

/-- server_window_resize (lines 321-338): idempotent while a handshake
is pending, otherwise allocate the next buffer id, obtain a fresh shm
region for it, and record it as the pending new buffer. -/
def server_window_resize (yg : YutaniGlobals) (wid : Nat) (width height : Int) : YutaniGlobals × Nat :=
  match getWinH yg wid with
  | none => (yg, 0)
  | some w =>
    if w.newbufid ≠ 0 then (yg, w.newbufid)
    else
      let nb := yg.next_bufid
      let yg1 := { yg with next_bufid := yg.next_bufid + 1 }
      let yg2 := setWin yg1 wid (fun ww => { ww with newbufid := nb, newbuffer := nb })
      let yg3 := { yg2 with shm := addKey yg2.shm nb }
      (yg3, nb)

/-- server_window_resize_finish (lines 340-367): no-op without a
pending handshake; otherwise damage the old geometry, install the new
size and buffer id, release the old shm region, promote the new buffer
pointer, and damage the new geometry. -/
noncomputable def server_window_resize_finish (yg : YutaniGlobals) (wid : Nat) (width height : Int) : YutaniGlobals :=
  match getWinH yg wid with
  | none => yg
  | some w =>
    if w.newbufid = 0 then yg
    else
      let oldbufid := w.bufid
      let yg1 := mark_window yg w
      let yg2 := setWin yg1 wid (fun ww => { ww with width := width, height := height, bufid := ww.newbufid, newbufid := 0 })
      let yg3 := { yg2 with shm := yg2.shm.erase oldbufid }
      let yg4 := setWin yg3 wid (fun ww => { ww with buffer := ww.newbuffer, newbuffer := 0 })
      markWid yg4 wid

/-- window_mark_for_close (lines 1002-1005). -/
def window_mark_for_close (yg : YutaniGlobals) (wid : Nat) : YutaniGlobals :=
  setWin yg wid (fun w => { w with anim_mode := YUTANI_EFFECT_FADE_OUT, anim_start := yg.tick_count })

/-- window_remove_from_client (lines 1007-1020). -/
def window_remove_from_client (yg : YutaniGlobals) (w : SWindow) : YutaniGlobals :=
  match lookupClient yg.clients_to_windows w.owner with
  | none => yg
  | some cl =>
    let cl2 := cl.erase w.wid
    if cl2.length = 0 then { yg with clients_to_windows := removeClient yg.clients_to_windows w.owner }
    else { yg with clients_to_windows := setClient yg.clients_to_windows w.owner cl2 }

/-- window_actually_close (lines 1022-1045): unregister the wid, drop
from the window list, unorder, damage, clear focus if it pointed here,
release the shm region of the active buffer (and only that region),
then notify subscribers.  The window struct itself is never freed. -/
noncomputable def window_actually_close (yg : YutaniGlobals) (wid : Nat) : YutaniGlobals :=
  match getWinH yg wid with
  | none => yg
  | some w =>
    let yg1 := { yg with wids_to_windows := yg.wids_to_windows.erase wid }
    let yg2 := { yg1 with windows := yg1.windows.erase wid }
    let yg3 := unorder_window yg2 wid
    let yg4 := markWid yg3 wid
    let yg5 := if yg4.focused_window = some wid then { yg4 with focused_window := none } else yg4
    let yg6 := { yg5 with shm := yg5.shm.erase w.bufid }
    notify_subscribers yg6

/-- ad_flags (lines 1047-1053). -/
def ad_flags (yg : YutaniGlobals) (win : SWindow) : Nat :=
  if yg.focused_window = some win.wid then win.client_flags ||| 1 else win.client_flags

/-- yutani_query_result (lines 1055-1061). -/
def yutani_query_result (yg : YutaniGlobals) (dest : Nat) (w : Option Nat) : YutaniGlobals :=
  match w with
  | none => yg
  | some wid =>
    match getWinH yg wid with
    | none => yg
    | some win =>
      if win.client_length ≠ 0 then
        sendTo yg dest (MsgOut.advertise win.wid (ad_flags yg win) win.client_length win.client_strings)
      else yg

/-- window_tile (lines 1072-1092): divide the display into a grid that
keeps the TOP window height clear, move the window to the chosen cell
with damage, then offer the cell size to its owner. -/
noncomputable def window_tile (yg : YutaniGlobals) (wid : Nat) (width_div height_div x y : Int) : YutaniGlobals :=
  let panel_h : Int :=
    match yg.top_z with
    | some p =>
      match getWinH yg p with
      | some pw => pw.height
      | none => 0
    | none => 0
  let w := cdiv yg.width width_div
  let h := cdiv (yg.height - panel_h) height_div
  let yg1 := markWid yg wid
  let yg2 := setWin yg1 wid (fun win => { win with x := w * x, y := panel_h + h * y })
  let yg3 := markWid yg2 wid
  match getWinH yg3 wid with
  | some win => sendTo yg3 win.owner (MsgOut.resize YUTANI_MSG_RESIZE_OFFER wid w h 0)
  | none => yg3

/-- Delivery of a key event to the focused window (tail of
handle_key_event, lines 1221-1227). -/
def key_deliver_focused (yg : YutaniGlobals) (focused : Option Nat) (ke : KeyEvent) (st : KeyEventState) : YutaniGlobals :=
  match focused with
  | some f =>
    match getWinH yg f with
    | some fw => sendTo yg fw.owner (MsgOut.key (f : Int) ke st)
    | none => yg
  | none => yg

/-- Key bind lookup and delivery (lines 1208-1227): a bound chord is
sent to the bind owner first and, unless the bind steals, also to the
focused window. -/
def key_deliver (yg : YutaniGlobals) (focused : Option Nat) (ke : KeyEvent) (st : KeyEventState) : YutaniGlobals :=
  let key_code := ((ke.modifiers <<< 24) ||| ke.keycode) % 4294967296
  match lookupBind yg.key_binds key_code with
  | some bind =>
    let fwid : Int :=
      match focused with
      | some f => (f : Int)
      | none => -1
    let yg1 := sendTo yg bind.1 (MsgOut.key fwid ke st)
    if bind.2 = YUTANI_BIND_STEAL then yg1
    else key_deliver_focused yg1 focused ke st
  | none => key_deliver_focused yg focused ke st

/-- handle_key_event (lines 1094-1228): mirror the keyboard state, run
the built-in chord cascade for the focused window (rotation, tiling and
debug toggles, each chord returning when it fires), then fall through
to the key-bind table and delivery to the focused window. -/
noncomputable def handle_key_event (yg0 : YutaniGlobals) (ke : KeyEvent) (st : KeyEventState) : YutaniGlobals :=
  let focused := get_focused yg0
  let yg := { yg0 with kbd_state := st }
  match focused with
  | none => key_deliver yg none ke st
  | some f =>
    match getWinH yg f with
    | none => key_deliver yg focused ke st
    | some fw =>
      let down := ke.action = KEY_ACTION_DOWN
      let ctrl := Nat.land ke.modifiers KEY_MOD_LEFT_CTRL ≠ 0
      let shift := Nat.land ke.modifiers KEY_MOD_LEFT_SHIFT ≠ 0
      let alt := Nat.land ke.modifiers KEY_MOD_LEFT_ALT ≠ 0
      let super := Nat.land ke.modifiers KEY_MOD_LEFT_SUPER ≠ 0
      let zok := fw.z ≠ YUTANI_ZORDER_BOTTOM ∧ fw.z ≠ YUTANI_ZORDER_TOP
      if down ∧ ctrl ∧ shift ∧ ke.keycode = 122 then
        let yg1 := markWid yg f
        let yg2 := setWin yg1 f (fun w => { w with rotation := w.rotation - 5 })
        markWid yg2 f
      else if down ∧ ctrl ∧ shift ∧ ke.keycode = 120 then
        let yg1 := markWid yg f
        let yg2 := setWin yg1 f (fun w => { w with rotation := w.rotation + 5 })
        markWid yg2 f
      else if down ∧ ctrl ∧ shift ∧ ke.keycode = 99 then
        let yg1 := markWid yg f
        let yg2 := setWin yg1 f (fun w => { w with rotation := 0 })
        markWid yg2 f
      else if down ∧ alt ∧ ke.keycode = KEY_F10 ∧ zok then
        window_tile yg f 1 1 0 0
      else if down ∧ ctrl ∧ shift ∧ ke.keycode = 118 then
        { yg with debug_shapes := 1 - yg.debug_shapes }
      else if down ∧ ctrl ∧ shift ∧ ke.keycode = 98 then
        { yg with debug_bounds := 1 - yg.debug_bounds }
      else if down ∧ super then
        if shift ∧ ke.keycode = KEY_ARROW_LEFT ∧ zok then window_tile yg f 2 2 0 0
        else if shift ∧ ke.keycode = KEY_ARROW_RIGHT ∧ zok then window_tile yg f 2 2 1 0
        else if ctrl ∧ ke.keycode = KEY_ARROW_LEFT ∧ zok then window_tile yg f 2 2 0 1
        else if ctrl ∧ ke.keycode = KEY_ARROW_RIGHT ∧ zok then window_tile yg f 2 2 1 1
        else if ke.keycode = KEY_ARROW_LEFT ∧ zok then window_tile yg f 2 1 0 0
        else if ke.keycode = KEY_ARROW_RIGHT ∧ zok then window_tile yg f 2 1 1 0
        else if ke.keycode = KEY_ARROW_UP ∧ zok then window_tile yg f 1 2 0 0
        else if ke.keycode = KEY_ARROW_DOWN ∧ zok then window_tile yg f 1 2 0 1
        else key_deliver yg focused ke st
      else key_deliver yg focused ke st

/-- add_key_bind (lines 1230-1245): both branches store owner and
response under the packed code, so the model is a plain upsert. -/
def add_key_bind (yg : YutaniGlobals) (key modifiers response : Nat) (owner : Nat) : YutaniGlobals :=
  let key_code := (((modifiers % 256) <<< 24) ||| (key % 16777216)) % 4294967296
  { yg with key_binds := setBind yg.key_binds key_code (owner, response) }

/-- mouse_start_drag (lines 1247-1263). -/
noncomputable def mouse_start_drag (yg : YutaniGlobals) : YutaniGlobals :=
  let yg1 := set_focused_at yg (cdiv yg.mouse_x MOUSE_SCALE) (cdiv yg.mouse_y MOUSE_SCALE)
  let yg2 := { yg1 with mouse_window := get_focused yg1 }
  match yg2.mouse_window with
  | none => yg2
  | some mw =>
    match getWinH yg2 mw with
    | none => yg2
    | some mwin =>
      if mwin.z = YUTANI_ZORDER_BOTTOM ∨ mwin.z = YUTANI_ZORDER_TOP then
        { yg2 with mouse_state := YUTANI_MOUSE_STATE_NORMAL, mouse_window := none }
      else
        let yg3 := { yg2 with mouse_state := YUTANI_MOUSE_STATE_MOVING,
                              mouse_init_x := yg2.mouse_x, mouse_init_y := yg2.mouse_y,
                              mouse_win_x := mwin.x, mouse_win_y := mwin.y }
        make_top yg3 mw

/-- mouse_start_resize (lines 1265-1285). -/
noncomputable def mouse_start_resize (yg : YutaniGlobals) : YutaniGlobals :=
  let yg1 := set_focused_at yg (cdiv yg.mouse_x MOUSE_SCALE) (cdiv yg.mouse_y MOUSE_SCALE)
  let yg2 := { yg1 with mouse_window := get_focused yg1 }
  match yg2.mouse_window with
  | none => yg2
  | some mw =>
    match getWinH yg2 mw with
    | none => yg2
    | some mwin =>
      if mwin.z = YUTANI_ZORDER_BOTTOM ∨ mwin.z = YUTANI_ZORDER_TOP then
        { yg2 with mouse_state := YUTANI_MOUSE_STATE_NORMAL, mouse_window := none }
      else
        let yg3 := { yg2 with mouse_state := YUTANI_MOUSE_STATE_RESIZING,
                              mouse_init_x := yg2.mouse_x, mouse_init_y := yg2.mouse_y,
                              mouse_win_x := mwin.x, mouse_win_y := mwin.y,
                              resizing_window := some mw,
                              resizing_w := mwin.width, resizing_h := mwin.height }
        make_top yg3 mw

/-- Coordinate update and clamping at the head of handle_mouse_event
(lines 1288-1299): relative deltas are added (the y delta subtracted)
after a times-3 scaling, absolute positions are installed times 3, then
both coordinates are clamped into 0 .. dimension * MOUSE_SCALE. -/
def mouse_coord_update (yg : YutaniGlobals) (mtype : Nat) (me : MousePacket) : YutaniGlobals :=
  let yg1 :=
    if mtype = YUTANI_MOUSE_EVENT_TYPE_RELATIVE then
      { yg with mouse_x := yg.mouse_x + me.x_difference * 3,
                mouse_y := yg.mouse_y - me.y_difference * 3 }
    else if mtype = YUTANI_MOUSE_EVENT_TYPE_ABSOLUTE then
      { yg with mouse_x := me.x_difference * 3, mouse_y := me.y_difference * 3 }
    else yg
  let mx1 := if yg1.mouse_x < 0 then 0 else yg1.mouse_x
  let my1 := if yg1.mouse_y < 0 then 0 else yg1.mouse_y
  let mx2 := if mx1 > yg1.width * MOUSE_SCALE then yg1.width * MOUSE_SCALE else mx1
  let my2 := if my1 > yg1.height * MOUSE_SCALE then yg1.height * MOUSE_SCALE else my1
  { yg1 with mouse_x := mx2, mouse_y := my2 }

/-- NORMAL case of the interaction state machine (lines 1302-1353). -/
noncomputable def mouse_normal (yg : YutaniGlobals) (me : MousePacket) : YutaniGlobals :=
  if Nat.land me.buttons YUTANI_MOUSE_BUTTON_LEFT ≠ 0 ∧ yg.kbd_state.k_alt then
    mouse_start_drag yg
  else if Nat.land me.buttons YUTANI_MOUSE_BUTTON_MIDDLE ≠ 0 ∧ yg.kbd_state.k_alt then
    mouse_start_resize yg
  else if Nat.land me.buttons YUTANI_MOUSE_BUTTON_LEFT ≠ 0 ∧ ¬ yg.kbd_state.k_alt then
    let yg1 := { yg with mouse_state := YUTANI_MOUSE_STATE_DRAGGING }
    let yg2 := set_focused_at yg1 (cdiv yg1.mouse_x MOUSE_SCALE) (cdiv yg1.mouse_y MOUSE_SCALE)
    let yg3 := { yg2 with mouse_window := get_focused yg2, mouse_moved := 0,
                          mouse_drag_button := YUTANI_MOUSE_BUTTON_LEFT }
    let click := device_to_window_opt (yg3.mouse_window.bind (getWinH yg3 ·))
      (cdiv yg3.mouse_x MOUSE_SCALE) (cdiv yg3.mouse_y MOUSE_SCALE)
      yg3.mouse_click_x yg3.mouse_click_y
    let yg4 := { yg3 with mouse_click_x := click.1, mouse_click_y := click.2 }
    match yg4.mouse_window with
    | some mw =>
      match getWinH yg4 mw with
      | some mwin =>
        sendTo yg4 mwin.owner (MsgOut.window_mouse mw yg4.mouse_click_x yg4.mouse_click_y (-1) (-1) me.buttons YUTANI_MOUSE_EVENT_DOWN)
      | none => yg4
    | none => yg4
  else
    let yg1 := { yg with mouse_window := get_focused yg }
    let tmp := top_at yg1 (u16 (cdiv yg1.mouse_x MOUSE_SCALE)) (u16 (cdiv yg1.mouse_y MOUSE_SCALE))
    let yg2 :=
      match yg1.mouse_window with
      | some mw =>
        match getWinH yg1 mw with
        | some mwin =>
          let p := device_to_window mwin (cdiv yg1.mouse_x MOUSE_SCALE) (cdiv yg1.mouse_y MOUSE_SCALE)
          sendTo yg1 mwin.owner (MsgOut.window_mouse mw p.1 p.2 (-1) (-1) me.buttons YUTANI_MOUSE_EVENT_MOVE)
        | none => yg1
      | none => yg1
    match tmp with
    | none => yg2
    | some t =>
      let yg3 :=
        if some t ≠ yg2.old_hover_window then
          let yg3a :=
            match getWinH yg2 t with
            | some tw =>
              let p := device_to_window tw (cdiv yg2.mouse_x MOUSE_SCALE) (cdiv yg2.mouse_y MOUSE_SCALE)
              sendTo yg2 tw.owner (MsgOut.window_mouse t p.1 p.2 (-1) (-1) me.buttons YUTANI_MOUSE_EVENT_ENTER)
            | none => yg2
          let yg3b :=
            match yg3a.old_hover_window with
            | some oh =>
              match getWinH yg3a oh with
              | some ow =>
                let p := device_to_window ow (cdiv yg3a.mouse_x MOUSE_SCALE) (cdiv yg3a.mouse_y MOUSE_SCALE)
                sendTo yg3a ow.owner (MsgOut.window_mouse oh p.1 p.2 (-1) (-1) me.buttons YUTANI_MOUSE_EVENT_LEAVE)
              | none => yg3a
            | none => yg3a
          { yg3b with old_hover_window := some t }
        else yg2
      if some t ≠ yg3.mouse_window then
        match getWinH yg3 t with
        | some tw =>
          let p := device_to_window tw (cdiv yg3.mouse_x MOUSE_SCALE) (cdiv yg3.mouse_y MOUSE_SCALE)
          sendTo yg3 tw.owner (MsgOut.window_mouse t p.1 p.2 (-1) (-1) me.buttons YUTANI_MOUSE_EVENT_MOVE)
        | none => yg3
      else yg3

/-- MOVING case (lines 1354-1366). -/
noncomputable def mouse_moving (yg : YutaniGlobals) (me : MousePacket) : YutaniGlobals :=
  if Nat.land me.buttons YUTANI_MOUSE_BUTTON_LEFT = 0 then
    { yg with mouse_window := none, mouse_state := YUTANI_MOUSE_STATE_NORMAL }
  else
    match yg.mouse_window with
    | none => yg
    | some mw =>
      let yg1 := markWid yg mw
      let yg2 := setWin yg1 mw (fun w => { w with
        x := yg1.mouse_win_x + cdiv (yg1.mouse_x - yg1.mouse_init_x) MOUSE_SCALE,
        y := yg1.mouse_win_y + cdiv (yg1.mouse_y - yg1.mouse_init_y) MOUSE_SCALE })
      markWid yg2 mw

/-- DRAGGING case (lines 1367-1397). -/
noncomputable def mouse_dragging (yg : YutaniGlobals) (me : MousePacket) : YutaniGlobals :=
  if Nat.land me.buttons yg.mouse_drag_button = 0 then
    let yg1 := { yg with mouse_state := YUTANI_MOUSE_STATE_NORMAL }
    let old_x := yg1.mouse_click_x
    let old_y := yg1.mouse_click_y
    let click := device_to_window_opt (yg1.mouse_window.bind (getWinH yg1 ·))
      (cdiv yg1.mouse_x MOUSE_SCALE) (cdiv yg1.mouse_y MOUSE_SCALE)
      yg1.mouse_click_x yg1.mouse_click_y
    let yg2 := { yg1 with mouse_click_x := click.1, mouse_click_y := click.2 }
    match yg2.mouse_window with
    | none => yg2
    | some mw =>
      match getWinH yg2 mw with
      | none => yg2
      | some mwin =>
        if yg2.mouse_moved = 0 then
          sendTo yg2 mwin.owner (MsgOut.window_mouse mw yg2.mouse_click_x yg2.mouse_click_y (-1) (-1) me.buttons YUTANI_MOUSE_EVENT_CLICK)
        else
          sendTo yg2 mwin.owner (MsgOut.window_mouse mw yg2.mouse_click_x yg2.mouse_click_y old_x old_y me.buttons YUTANI_MOUSE_EVENT_RAISE)
  else
    let yg1 := { yg with mouse_state := YUTANI_MOUSE_STATE_DRAGGING, mouse_moved := 1 }
    let old_x := yg1.mouse_click_x
    let old_y := yg1.mouse_click_y
    let click := device_to_window_opt (yg1.mouse_window.bind (getWinH yg1 ·))
      (cdiv yg1.mouse_x MOUSE_SCALE) (cdiv yg1.mouse_y MOUSE_SCALE)
      yg1.mouse_click_x yg1.mouse_click_y
    let yg2 := { yg1 with mouse_click_x := click.1, mouse_click_y := click.2 }
    if old_x ≠ yg2.mouse_click_x ∨ old_y ≠ yg2.mouse_click_y then
      match yg2.mouse_window with
      | none => yg2
      | some mw =>
        match getWinH yg2 mw with
        | none => yg2
        | some mwin =>
          sendTo yg2 mwin.owner (MsgOut.window_mouse mw yg2.mouse_click_x yg2.mouse_click_y old_x old_y me.buttons YUTANI_MOUSE_EVENT_DRAG)
    else yg2

/-- RESIZING case (lines 1398-1420). -/
noncomputable def mouse_resizing (yg : YutaniGlobals) (me : MousePacket) : YutaniGlobals :=
  let width_diff := cdiv (yg.mouse_x - yg.mouse_init_x) MOUSE_SCALE
  let height_diff := cdiv (yg.mouse_y - yg.mouse_init_y) MOUSE_SCALE
  let yg1 :=
    match yg.mouse_window.bind (getWinH yg ·) with
    | some mwin => mark_window_relative yg mwin (-2) (-2) (yg.resizing_w + 10) (yg.resizing_h + 10)
    | none => yg
  let yg2 :=
    match yg1.resizing_window.bind (getWinH yg1 ·) with
    | some rwin => { yg1 with resizing_w := rwin.width + width_diff, resizing_h := rwin.height + height_diff }
    | none => yg1
  let yg3 :=
    match yg2.mouse_window.bind (getWinH yg2 ·) with
    | some mwin => mark_window_relative yg2 mwin (-2) (-2) (yg2.resizing_w + 10) (yg2.resizing_h + 10)
    | none => yg2
  if Nat.land me.buttons YUTANI_MOUSE_BUTTON_MIDDLE = 0 then
    let yg4 :=
      match yg3.resizing_window with
      | none => yg3
      | some rw =>
        match getWinH yg3 rw with
        | none => yg3
        | some rwin =>
          sendTo yg3 rwin.owner (MsgOut.resize YUTANI_MSG_RESIZE_OFFER rw yg3.resizing_w yg3.resizing_h 0)
    { yg4 with resizing_window := none, mouse_window := none, mouse_state := YUTANI_MOUSE_STATE_NORMAL }
  else yg3

/-- Dispatch on the interaction state (the switch of lines 1301-1424). -/
noncomputable def mouse_fsm (yg : YutaniGlobals) (me : MousePacket) : YutaniGlobals :=
  if yg.mouse_state = YUTANI_MOUSE_STATE_NORMAL then mouse_normal yg me
  else if yg.mouse_state = YUTANI_MOUSE_STATE_MOVING then mouse_moving yg me
  else if yg.mouse_state = YUTANI_MOUSE_STATE_DRAGGING then mouse_dragging yg me
  else if yg.mouse_state = YUTANI_MOUSE_STATE_RESIZING then mouse_resizing yg me
  else yg

/-- handle_mouse_event (lines 1287-1425): coordinate update and clamp,
then the interaction state machine. -/
noncomputable def handle_mouse_event (yg : YutaniGlobals) (mtype : Nat) (me : MousePacket) : YutaniGlobals :=
  mouse_fsm (mouse_coord_update yg mtype me) me

/-- The per-message switch of the receive loop in main (lines
1554-1781).  The SUBSCRIBE case models the source faithfully: the
membership scan there only breaks out of its loop, so the insert runs
unconditionally and a duplicate subscription adds a second entry. -/
noncomputable def handle_msg (yg : YutaniGlobals) (src : Nat) (m : YMsg) : YutaniGlobals :=
  match m with
  | .hello => sendTo yg src (MsgOut.welcome yg.width yg.height)
  | .window_new w h =>
    let res := server_window_create yg w h src
    let yg1 := res.1
    let yg2 :=
      match getWinH yg1 res.2 with
      | some win => sendTo yg1 src (MsgOut.window_init win.wid win.width win.height win.bufid)
      | none => yg1
    notify_subscribers yg2
  | .flip wid =>
    match hashGet yg wid with
    | some w => mark_window yg w
    | none => yg
  | .flip_region wid x y wdt hgt =>
    match hashGet yg wid with
    | some w => mark_window_relative yg w x y wdt hgt
    | none => yg
  | .key_event ev st => handle_key_event yg ev st
  | .mouse_event mtype packet => handle_mouse_event yg mtype packet
  | .window_move wid x y =>
    match hashGet yg wid with
    | some w =>
      let yg1 := mark_window yg w
      let yg2 := setWin yg1 wid (fun ww => { ww with x := x, y := y })
      markWid yg2 wid
    | none => yg
  | .window_close wid =>
    match hashGet yg wid with
    | some w =>
      let yg1 := window_mark_for_close yg wid
      window_remove_from_client yg1 w
    | none => yg
  | .window_stack wid z =>
    match hashGet yg wid with
    | some _ => reorder_window yg wid (z % 65536)
    | none => yg
  | .resize_request wid w h =>
    match hashGet yg wid with
    | some win => sendTo yg src (MsgOut.resize YUTANI_MSG_RESIZE_OFFER win.wid w h 0)
    | none => yg
  | .resize_offer wid w h =>
    match hashGet yg wid with
    | some win => sendTo yg src (MsgOut.resize YUTANI_MSG_RESIZE_OFFER win.wid w h 0)
    | none => yg
  | .resize_accept wid w h =>
    match hashGet yg wid with
    | some win =>
      let res := server_window_resize yg wid w h
      sendTo res.1 src (MsgOut.resize YUTANI_MSG_RESIZE_BUFID win.wid w h res.2)
    | none => yg
  | .resize_done wid w h =>
    match hashGet yg wid with
    | some _ => server_window_resize_finish yg wid w h
    | none => yg
  | .query_windows =>
    let yg1 := yutani_query_result yg src yg.bottom_z
    let yg2 := yg1.mid_zs.foldl (fun acc wid => yutani_query_result acc src (some wid)) yg1
    let yg3 := yutani_query_result yg2 src yg2.top_z
    sendTo yg3 src (MsgOut.advertise 0 0 0 0)
  | .subscribe =>
    { yg with window_subscribers := yg.window_subscribers ++ [src] }
  | .unsubscribe =>
    { yg with window_subscribers := yg.window_subscribers.erase src }
  | .window_advertise wid flags offsets size strings =>
    match hashGet yg wid with
    | some _ =>
      let yg1 := setWin yg wid (fun w =>
        { w with client_flags := flags, client_offsets := offsets,
                 client_length := size, client_strings := strings })
      notify_subscribers yg1
    | none => yg
  | .session_end => broadcastMsg yg MsgOut.session_end
  | .window_focus wid =>
    match hashGet yg wid with
    | some _ => set_focused_window yg (some wid)
    | none => yg
  | .key_bind key modifiers response => add_key_bind yg key modifiers response src
  | .window_drag_start wid =>
    match hashGet yg wid with
    | some _ => mouse_start_drag yg
    | none => yg
  | .window_update_shape wid set_shape =>
    match hashGet yg wid with
    | some _ => server_window_update_shape yg wid set_shape
    | none => yg
  | .unknown _ => yg

/-- One iteration of the receive loop (lines 1522-1783): a zero-length
packet marks every window of the dead peer for close and drops its
client entry; a wrong magic drops the message; anything else goes to
the message switch. -/
noncomputable def handle_packet (yg : YutaniGlobals) (p : Packet) : YutaniGlobals :=
  match p with
  | .dead src =>
    match lookupClient yg.clients_to_windows src with
    | some cl =>
      let yg1 := cl.foldl (fun acc wid => window_mark_for_close acc wid) yg
      { yg1 with clients_to_windows := removeClient yg1.clients_to_windows src }
    | none => yg
  | .msg src magic m =>
    if magic ≠ YUTANI_MSG__MAGIC then yg else handle_msg yg src m

/-- The compositor state right after the initialization in main
(lines 1430-1521): empty registries, centered mouse, NORMAL state. -/
def initState (width height : Int) : YutaniGlobals :=
  { width := width, height := height, heap := [], windows := [], wids_to_windows := [],
    clients_to_windows := [], mid_zs := [], bottom_z := none, top_z := none,
    window_subscribers := [], key_binds := [], focused_window := none,
    old_hover_window := none,
    mouse_x := cdiv (width * MOUSE_SCALE) 2, mouse_y := cdiv (height * MOUSE_SCALE) 2,
    mouse_state := YUTANI_MOUSE_STATE_NORMAL, mouse_window := none,
    mouse_init_x := 0, mouse_init_y := 0, mouse_win_x := 0, mouse_win_y := 0,
    mouse_click_x := 0, mouse_click_y := 0, mouse_drag_button := 0, mouse_moved := 0,
    resizing_window := none, resizing_w := 0, resizing_h := 0,
    kbd_state := ⟨false⟩, tick_count := 0, next_wid := 1, next_bufid := 1,
    shm := [], update_list := [], sent := [], debug_shapes := 0, debug_bounds := 0 }

/-- The z field of the window a wid names, read through the heap. -/
def getZ (yg : YutaniGlobals) (wid : Nat) : Option Nat :=
  (getWinH yg wid).map (fun w => w.z)

/-- Wids of all window structs ever allocated. -/
def heapKeys (yg : YutaniGlobals) : List Nat := yg.heap.map (fun p => p.1)

/-- A wid belongs to none of the three stacking tiers. -/
def notInTiers (yg : YutaniGlobals) (wid : Nat) : Prop :=
  wid ∉ yg.mid_zs ∧ yg.bottom_z ≠ some wid ∧ yg.top_z ≠ some wid

/-- No wid belongs to two stacking tiers at once. -/
def atMostOneTier (yg : YutaniGlobals) : Prop :=
  (∀ w ∈ yg.mid_zs, yg.bottom_z ≠ some w ∧ yg.top_z ≠ some w) ∧
  (∀ w ∈ yg.bottom_z.toList, yg.top_z ≠ some w)

/-- Well-formedness of the compositor state: allocated wids stay below
the wid counter, the middle list has no duplicates, the z field of a
tier member matches its tier, and no window sits in two tiers. -/
def WF (yg : YutaniGlobals) : Prop :=
  (∀ k ∈ heapKeys yg, k < yg.next_wid) ∧
  yg.mid_zs.Nodup ∧
  (∀ w ∈ yg.mid_zs, getZ yg w ≠ none ∧ getZ yg w ≠ some YUTANI_ZORDER_BOTTOM ∧
    getZ yg w ≠ some YUTANI_ZORDER_TOP) ∧
  (∀ w ∈ yg.bottom_z.toList, getZ yg w = some YUTANI_ZORDER_BOTTOM) ∧
  (∀ w ∈ yg.top_z.toList, getZ yg w = some YUTANI_ZORDER_TOP) ∧
  atMostOneTier yg

instance (yg : YutaniGlobals) (wid : Nat) : Decidable (notInTiers yg wid) := by
  unfold notInTiers
  infer_instance

instance (yg : YutaniGlobals) : Decidable (atMostOneTier yg) := by
  unfold atMostOneTier
  infer_instance

instance (yg : YutaniGlobals) : Decidable (WF yg) := by
  unfold WF getZ heapKeys
  infer_instance

/-- Candidate order of the hit test, written from the claim: the TOP
window first, then the middle sequence from front (list tail) to back
(list head), then the BOTTOM window. -/
def zOrderCandidates (yg : YutaniGlobals) : List Nat :=
  yg.top_z.toList ++ yg.mid_zs.reverse ++ yg.bottom_z.toList

/-- Acceptance predicate of the hit test, written from the claim text:
a candidate passes exactly when the point mapped to window coordinates
lies inside the window rectangle and the alpha of the pixel there is at
least the window alpha threshold. -/
noncomputable def hitTestSpec (yg : YutaniGlobals) (x y : Int) (wid : Nat) : Bool :=
  match getWinH yg wid with
  | none => false
  | some w =>
    let p := device_to_window w x y
    decide (0 ≤ p.1) && decide (p.1 < w.width) && decide (0 ≤ p.2) && decide (p.2 < w.height) &&
    decide (w.alpha_threshold ≤ w.alphaAt p.1 p.2)

/-- Number of NOTIFY messages in a send log addressed to one client. -/
def notifyCountTo (l : List Sent) (c : Nat) : Nat :=
  (l.filter (fun s => decide (s.dest = some c) && decide (s.msg = MsgOut.notify))).length

/-- Window literal for concrete test states: unrotated, opaque hit
shape with the given constant alpha, buffer key equal to the wid. -/
def mkWin (wid owner : Nat) (x y width height : Int) (z : Nat) (alpha : Nat) : SWindow :=
  { wid := wid, owner := owner, x := x, y := y, width := width, height := height,
    z := z, rotation := 0, alpha_threshold := 0, bufid := wid, newbufid := 0,
    buffer := wid, newbuffer := 0, anim_mode := 0, anim_start := 0,
    client_flags := 0, client_offsets := [0, 0, 0, 0, 0], client_length := 0,
    client_strings := 0, alphaAt := fun _ _ => alpha }

/-- Concrete state with window 1 on TOP and window 2 in the middle. -/
def twoWinState : YutaniGlobals :=
  { initState 1024 768 with
    heap := [(1, mkWin 1 7 0 0 200 200 YUTANI_ZORDER_TOP 255), (2, mkWin 2 8 0 0 300 300 1 255)],
    windows := [1, 2], wids_to_windows := [1, 2], mid_zs := [2],
    top_z := some 1, next_wid := 3, next_bufid := 3, shm := [1, 2] }

/-- Concrete state with two middle windows; the pointer (at the display
center, device point (512, 384)) is over window 2 only. -/
def dragState : YutaniGlobals :=
  { initState 1024 768 with
    heap := [(1, mkWin 1 7 700 500 100 100 1 255), (2, mkWin 2 8 0 0 600 400 2 255)],
    windows := [1, 2], wids_to_windows := [1, 2], mid_zs := [1, 2],
    next_wid := 3, next_bufid := 3, shm := [1, 2] }

/-- Concrete state with a single middle window and no pending resize. -/
def oneWinState : YutaniGlobals :=
  { initState 1024 768 with
    heap := [(1, mkWin 1 7 0 0 400 300 1 0)], windows := [1], wids_to_windows := [1],
    mid_zs := [1], next_wid := 2, next_bufid := 2, shm := [1] }

/-- Concrete state with a single window in the middle of a resize
handshake: active buffer 2 and still-unmapped new buffer 3, both with
live shm regions. -/
def pendingResizeState : YutaniGlobals :=
  { initState 1024 768 with
    heap := [(1, { mkWin 1 7 0 0 400 300 1 0 with
      bufid := 2, buffer := 2, newbufid := 3, newbuffer := 3 })],
    windows := [1], wids_to_windows := [1], mid_zs := [1],
    next_wid := 2, next_bufid := 4, shm := [2, 3] }

/-- Concrete state for the tiling scenario: display 1024x768, a TOP
window of height 24, and a focused middle window. -/
def tileState : YutaniGlobals :=
  { initState 1024 768 with
    heap := [(1, mkWin 1 7 0 0 1024 24 YUTANI_ZORDER_TOP 255), (2, mkWin 2 8 100 100 400 300 1 255)],
    windows := [1, 2], wids_to_windows := [1, 2], mid_zs := [2], top_z := some 1,
    focused_window := some 2, next_wid := 3, next_bufid := 3, shm := [1, 2] }

/-- The Super plus left-arrow key press. -/
def superLeft : KeyEvent :=
  { action := KEY_ACTION_DOWN, modifiers := KEY_MOD_LEFT_SUPER, keycode := KEY_ARROW_LEFT }

/-- Truncation toward zero moves a real by less than one. -/
theorem truncR_err (r : ℝ) : |((truncR r : Int) : ℝ) - r| < 1 := by
  unfold truncR
  by_cases h : 0 ≤ r
  · rw [if_pos h, abs_lt]
    constructor
    · linarith [Int.lt_floor_add_one r]
    · linarith [Int.floor_le r]
  · rw [if_neg h, abs_lt]
    constructor
    · linarith [Int.le_ceil r]
    · linarith [Int.ceil_lt_add_one r]

/-- A rotation applied to a vector of coordinates below one in absolute
value yields coordinates of absolute value at most three halves. -/
theorem rot_bound (s c e1 e2 : ℝ) (hsc : s ^ 2 + c ^ 2 = 1)
    (h1 : |e1| < 1) (h2 : |e2| < 1) : |e1 * c + e2 * s| ≤ 3 / 2 := by
  have h1s : e1 ^ 2 < 1 := by
    have := sq_abs e1
    nlinarith [abs_nonneg e1]
  have h2s : e2 ^ 2 < 1 := by
    have := sq_abs e2
    nlinarith [abs_nonneg e2]
  have key : (e1 * c + e2 * s) ^ 2 ≤ 2 := by
    nlinarith [sq_nonneg (e1 * s - e2 * c)]
  rw [abs_le]
  constructor
  · nlinarith [sq_nonneg (e1 * c + e2 * s + 3 / 2)]
  · nlinarith [sq_nonneg (e1 * c + e2 * s - 3 / 2)]

/-- Truncating a real within three halves of an integer lands within
two of that integer. -/
theorem trunc_int_near (k : Int) (r : ℝ) (h : |r - (k : ℝ)| ≤ 3 / 2) : |truncR r - k| ≤ 2 := by
  have h1 := truncR_err r
  have h2 : |((truncR r - k : Int) : ℝ)| < 3 := by
    push_cast
    have step : ((truncR r : Int) : ℝ) - (k : ℝ) = (((truncR r : Int) : ℝ) - r) + (r - (k : ℝ)) := by
      ring
    rw [step]
    calc |(((truncR r : Int) : ℝ) - r) + (r - (k : ℝ))|
        ≤ |((truncR r : Int) : ℝ) - r| + |r - (k : ℝ)| := abs_add _ _
      _ < 3 := by linarith
  have h3 : |truncR r - k| < 3 := by exact_mod_cast h2
  omega

/-- Round trip of the rotation part of the coordinate transforms:
rotating integer coordinates, truncating, rotating back and truncating
again lands within two of the original coordinates. -/
theorem rot_roundtrip (s c : ℝ) (hsc : s ^ 2 + c ^ 2 = 1) (a b : Int) :
    |truncR (((truncR ((a : ℝ) * c - (b : ℝ) * s) : Int) : ℝ) * c +
             ((truncR ((a : ℝ) * s + (b : ℝ) * c) : Int) : ℝ) * s) - a| ≤ 2 ∧
    |truncR (-(((truncR ((a : ℝ) * c - (b : ℝ) * s) : Int) : ℝ) * s) +
             ((truncR ((a : ℝ) * s + (b : ℝ) * c) : Int) : ℝ) * c) - b| ≤ 2 := by
  set n1 : ℝ := (a : ℝ) * c - (b : ℝ) * s with hn1
  set n2 : ℝ := (a : ℝ) * s + (b : ℝ) * c with hn2
  have h1 : |((truncR n1 : Int) : ℝ) - n1| < 1 := truncR_err n1
  have h2 : |((truncR n2 : Int) : ℝ) - n2| < 1 := truncR_err n2
  set e1 : ℝ := ((truncR n1 : Int) : ℝ) - n1 with he1
  set e2 : ℝ := ((truncR n2 : Int) : ℝ) - n2 with he2
  constructor
  · apply trunc_int_near
    have key : ((truncR n1 : Int) : ℝ) * c + ((truncR n2 : Int) : ℝ) * s - (a : ℝ) =
        e1 * c + e2 * s := by
      rw [he1, hn1, hn2]
      linear_combination (a : ℝ) * hsc
    rw [key]
    exact rot_bound s c e1 e2 hsc h1 h2
  · apply trunc_int_near
    have key : -(((truncR n1 : Int) : ℝ) * s) + ((truncR n2 : Int) : ℝ) * c - (b : ℝ) =
        e2 * c + (-e1) * s := by
      rw [he1, he2, hn1, hn2]
      linear_combination (b : ℝ) * hsc
    rw [key]
    have h1n : |(-e1)| < 1 := by rw [abs_neg]; exact h1
    exact rot_bound s c e2 (-e1) hsc h2 h1n

/-- Round-trip bound stated through explicit component equations, so a
caller can discharge the syntactic matching by push_cast and ring. -/
theorem rot_roundtrip_flex (s c : ℝ) (hsc : s ^ 2 + c ^ 2 = 1) (a b : Int) (r1 r2 m1 m2 : ℝ)
    (hr1 : r1 = (a : ℝ) * c - (b : ℝ) * s) (hr2 : r2 = (a : ℝ) * s + (b : ℝ) * c)
    (hm1 : m1 = ((truncR r1 : Int) : ℝ) * c + ((truncR r2 : Int) : ℝ) * s)
    (hm2 : m2 = -(((truncR r1 : Int) : ℝ) * s) + ((truncR r2 : Int) : ℝ) * c) :
    |truncR m1 - a| ≤ 2 ∧ |truncR m2 - b| ≤ 2 := by
  subst hr1; subst hr2; subst hm1; subst hm2
  exact rot_roundtrip s c hsc a b

/-- Unfolding of window_to_device for a rotated window. -/
theorem window_to_device_rot (w : SWindow) (hrot : w.rotation ≠ 0) (x y : Int) :
    window_to_device w x y =
      (truncR (((x : ℝ) - ((cdiv w.width 2 : Int) : ℝ)) * Real.cos (Real.pi * ((w.rotation : ℝ) / 180)) -
               ((y : ℝ) - ((cdiv w.height 2 : Int) : ℝ)) * Real.sin (Real.pi * ((w.rotation : ℝ) / 180))) +
         cdiv w.width 2 + w.x,
       truncR (((x : ℝ) - ((cdiv w.width 2 : Int) : ℝ)) * Real.sin (Real.pi * ((w.rotation : ℝ) / 180)) +
               ((y : ℝ) - ((cdiv w.height 2 : Int) : ℝ)) * Real.cos (Real.pi * ((w.rotation : ℝ) / 180))) +
         cdiv w.height 2 + w.y) := by
  simp only [window_to_device, if_neg hrot]

/-- Unfolding of device_to_window for a rotated window, with the angle
rewritten from the negated form the source computes. -/
theorem device_to_window_rot (w : SWindow) (hrot : w.rotation ≠ 0) (x y : Int) :
    device_to_window w x y =
      (truncR ((((x - w.x : Int) : ℝ) - ((cdiv w.width 2 : Int) : ℝ)) * Real.cos (Real.pi * ((w.rotation : ℝ) / 180)) +
               (((y - w.y : Int) : ℝ) - ((cdiv w.height 2 : Int) : ℝ)) * Real.sin (Real.pi * ((w.rotation : ℝ) / 180))) +
         cdiv w.width 2,
       truncR (-((((x - w.x : Int) : ℝ) - ((cdiv w.width 2 : Int) : ℝ)) * Real.sin (Real.pi * ((w.rotation : ℝ) / 180))) +
               (((y - w.y : Int) : ℝ) - ((cdiv w.height 2 : Int) : ℝ)) * Real.cos (Real.pi * ((w.rotation : ℝ) / 180))) +
         cdiv w.height 2) := by
  have hs : Real.sin ((-Real.pi) * ((w.rotation : ℝ) / 180)) =
      -Real.sin (Real.pi * ((w.rotation : ℝ) / 180)) := by
    rw [neg_mul, Real.sin_neg]
  have hc : Real.cos ((-Real.pi) * ((w.rotation : ℝ) / 180)) =
      Real.cos (Real.pi * ((w.rotation : ℝ) / 180)) := by
    rw [neg_mul, Real.cos_neg]
  simp only [device_to_window, if_neg hrot, hs, hc]
  rw [Prod.ext_iff]
  constructor
  · dsimp only
    congr 2
    push_cast
    ring
  · dsimp only
    congr 2
    push_cast
    ring

/-- Claim C9: for every window and every point, composing
device_to_window after window_to_device (and vice versa) returns the
original point up to the error introduced by the integer truncation of
the rotation math, which is at most two per axis; for unrotated windows
the maps are exact inverses, so the bound also holds there. -/
theorem c9_transforms_inverse (w : SWindow) (x y : Int) :
    |(device_to_window w (window_to_device w x y).1 (window_to_device w x y).2).1 - x| ≤ 2 ∧
    |(device_to_window w (window_to_device w x y).1 (window_to_device w x y).2).2 - y| ≤ 2 ∧
    |(window_to_device w (device_to_window w x y).1 (device_to_window w x y).2).1 - x| ≤ 2 ∧
    |(window_to_device w (device_to_window w x y).1 (device_to_window w x y).2).2 - y| ≤ 2 := by
  by_cases hrot : w.rotation = 0
  · have h1 : window_to_device w x y = (w.x + x, w.y + y) := by
      simp [window_to_device, hrot]
    have h3 : device_to_window w x y = (x - w.x, y - w.y) := by
      simp [device_to_window, hrot]
    rw [h1]
    dsimp only
    have h2 : device_to_window w (w.x + x) (w.y + y) = (x, y) := by
      simp [device_to_window, hrot]
    rw [h2, h3]
    dsimp only
    have h4 : window_to_device w (x - w.x) (y - w.y) = (x, y) := by
      simp [window_to_device, hrot]
    rw [h4]
    dsimp only
    refine ⟨?_, ?_, ?_, ?_⟩ <;> simp
  · set θ : ℝ := Real.pi * ((w.rotation : ℝ) / 180) with hθ
    set cx : Int := cdiv w.width 2 with hcx
    set cy : Int := cdiv w.height 2 with hcy
    set R1 : ℝ := ((x : ℝ) - ((cx : Int) : ℝ)) * Real.cos θ - ((y : ℝ) - ((cy : Int) : ℝ)) * Real.sin θ with hR1
    set R2 : ℝ := ((x : ℝ) - ((cx : Int) : ℝ)) * Real.sin θ + ((y : ℝ) - ((cy : Int) : ℝ)) * Real.cos θ with hR2
    set M1 : ℝ := ((((truncR R1 + cx + w.x) - w.x : Int) : ℝ) - ((cx : Int) : ℝ)) * Real.cos θ +
        ((((truncR R2 + cy + w.y) - w.y : Int) : ℝ) - ((cy : Int) : ℝ)) * Real.sin θ with hM1
    set M2 : ℝ := -(((((truncR R1 + cx + w.x) - w.x : Int) : ℝ) - ((cx : Int) : ℝ)) * Real.sin θ) +
        ((((truncR R2 + cy + w.y) - w.y : Int) : ℝ) - ((cy : Int) : ℝ)) * Real.cos θ with hM2
    set S1 : ℝ := (((x - w.x : Int) : ℝ) - ((cx : Int) : ℝ)) * Real.cos θ +
        (((y - w.y : Int) : ℝ) - ((cy : Int) : ℝ)) * Real.sin θ with hS1
    set S2 : ℝ := -((((x - w.x : Int) : ℝ) - ((cx : Int) : ℝ)) * Real.sin θ) +
        (((y - w.y : Int) : ℝ) - ((cy : Int) : ℝ)) * Real.cos θ with hS2
    set N1 : ℝ := (((truncR S1 + cx : Int) : ℝ) - ((cx : Int) : ℝ)) * Real.cos θ -
        (((truncR S2 + cy : Int) : ℝ) - ((cy : Int) : ℝ)) * Real.sin θ with hN1
    set N2 : ℝ := (((truncR S1 + cx : Int) : ℝ) - ((cx : Int) : ℝ)) * Real.sin θ +
        (((truncR S2 + cy : Int) : ℝ) - ((cy : Int) : ℝ)) * Real.cos θ with hN2
    have hco1 := rot_roundtrip_flex (Real.sin θ) (Real.cos θ) (Real.sin_sq_add_cos_sq θ)
      (x - cx) (y - cy) R1 R2 M1 M2
      (by rw [hR1]; push_cast; ring) (by rw [hR2]; push_cast; ring)
      (by rw [hM1]; push_cast; ring) (by rw [hM2]; push_cast; ring)
    have hco2 := rot_roundtrip_flex (-Real.sin θ) (Real.cos θ)
      (by rw [neg_pow]; simp [Real.sin_sq_add_cos_sq θ])
      (x - w.x - cx) (y - w.y - cy) S1 S2 N1 N2
      (by rw [hS1]; push_cast; ring) (by rw [hS2]; push_cast; ring)
      (by rw [hN1]; push_cast; ring) (by rw [hN2]; push_cast; ring)
    have hgoal1 : device_to_window w (window_to_device w x y).1 (window_to_device w x y).2 =
        (truncR M1 + cx, truncR M2 + cy) := by
      rw [window_to_device_rot w hrot x y]
      rw [← hθ, ← hcx, ← hcy, ← hR1, ← hR2]
      dsimp only
      rw [device_to_window_rot w hrot]
    have hgoal2 : window_to_device w (device_to_window w x y).1 (device_to_window w x y).2 =
        (truncR N1 + cx + w.x, truncR N2 + cy + w.y) := by
      rw [device_to_window_rot w hrot x y]
      rw [← hθ, ← hcx, ← hcy, ← hS1, ← hS2]
      dsimp only
      rw [window_to_device_rot w hrot]
    rw [hgoal1, hgoal2]
    dsimp only
    have b1 := hco1.1
    have b2 := hco1.2
    have b3 := hco2.1
    have b4 := hco2.2
    rw [abs_le] at b1 b2 b3 b4
    refine ⟨?_, ?_, ?_, ?_⟩ <;> rw [abs_le] <;> constructor <;> linarith [b1.1, b1.2, b2.1, b2.2, b3.1, b3.2, b4.1, b4.2]

/-- check_top_at on a present window agrees with the spec-side hit
predicate. -/
theorem check_top_at_eq (yg : YutaniGlobals) (wid : Nat) (x y : Int) :
    check_top_at yg (some wid) x y = if hitTestSpec yg x y wid then some wid else none := by
  unfold check_top_at hitTestSpec
  cases h : getWinH yg wid with
  | none => simp [h]
  | some win =>
    simp only [h]
    split_ifs with h1 h2 h3 <;>
      simp_all [Bool.and_eq_true, decide_eq_true_eq] <;> omega

/-- Claim C6: top_at returns the first window passing the hit test
when candidates are taken in the order TOP, then the middle sequence
from front (list tail) to back, then BOTTOM, where a candidate passes
exactly when the mapped point is inside its rectangle with pixel alpha
at least the window threshold. -/
theorem c6_top_at_first_hit (yg : YutaniGlobals) (x y : Int) :
    top_at yg x y = (zOrderCandidates yg).find? (hitTestSpec yg x y) := by
  have his : ∀ wid, (check_top_at yg (some wid) x y).isSome = hitTestSpec yg x y wid := by
    intro wid
    rw [check_top_at_eq]
    by_cases h : hitTestSpec yg x y wid <;> simp [h]
  have hfind : yg.mid_zs.reverse.find? (fun wid => (check_top_at yg (some wid) x y).isSome) =
      yg.mid_zs.reverse.find? (hitTestSpec yg x y) := by
    congr 1
    funext wid
    exact his wid
  unfold top_at zOrderCandidates
  rw [hfind, List.find?_append, List.find?_append]
  cases htop : yg.top_z with
  | none =>
    have h0 : check_top_at yg none x y = none := rfl
    rw [h0]
    simp only [Option.isSome_none, Bool.false_eq_true, if_false, Option.toList_none,
      List.find?_nil, Option.none_or]
    cases hmid : yg.mid_zs.reverse.find? (hitTestSpec yg x y) with
    | some m => simp [hmid]
    | none =>
      simp only [hmid, Option.none_or]
      cases hbot : yg.bottom_z with
      | none => simp [check_top_at]
      | some b =>
        simp only [his, Option.toList_some]
        by_cases hb : hitTestSpec yg x y b <;> simp [hb]
  | some t =>
    simp only [his, Option.toList_some, List.find?_cons]
    by_cases ht : hitTestSpec yg x y t
    · simp [ht]
    · simp only [ht, Bool.false_eq_true, if_false, Option.none_or]
      cases hmid : yg.mid_zs.reverse.find? (hitTestSpec yg x y) with
      | some m => simp [hmid]
      | none =>
        simp only [hmid, Option.none_or]
        cases hbot : yg.bottom_z with
        | none => simp [check_top_at]
        | some b =>
          simp only [his, Option.toList_some]
          by_cases hb : hitTestSpec yg x y b <;> simp [hb]

/-- Heap update seen through heap lookup. -/
theorem lookupWin_setWinHeap (hp : List (Nat × SWindow)) (wid v : Nat) (f : SWindow → SWindow) :
    lookupWin (setWinHeap hp wid f) v =
      if v = wid then (lookupWin hp wid).map f else lookupWin hp v := by
  induction hp with
  | nil => by_cases h : v = wid <;> simp [setWinHeap, lookupWin, h]
  | cons p t ih =>
    obtain ⟨k, w⟩ := p
    by_cases hk : k = wid
    · subst hk
      by_cases hv : k = v
      · subst hv
        simp [setWinHeap, lookupWin]
      · have hvw : ¬ v = k := fun hh => hv hh.symm
        simp [setWinHeap, lookupWin, hv, hvw]
    · by_cases hv : k = v
      · subst hv
        have hvw : ¬ k = wid := hk
        simp [setWinHeap, lookupWin, hk, hvw]
      · simp [setWinHeap, lookupWin, hk, hv, ih]

/-- Heap update preserves the key list. -/
theorem setWinHeap_keys (hp : List (Nat × SWindow)) (wid : Nat) (f : SWindow → SWindow) :
    (setWinHeap hp wid f).map (fun p => p.1) = hp.map (fun p => p.1) := by
  induction hp with
  | nil => rfl
  | cons p t ih =>
    obtain ⟨k, w⟩ := p
    by_cases hk : k = wid <;> simp [setWinHeap, hk, ih]

/-- A successful heap lookup means the key is present. -/
theorem mem_keys_of_lookupWin (hp : List (Nat × SWindow)) (v : Nat)
    (h : lookupWin hp v ≠ none) : v ∈ hp.map (fun p => p.1) := by
  induction hp with
  | nil => simp [lookupWin] at h
  | cons p t ih =>
    obtain ⟨k, w⟩ := p
    by_cases hv : k = v
    · subst hv
      simp
    · simp only [lookupWin, if_neg hv] at h
      have hm : v ∈ List.map (fun p => p.1) t := ih h
      simp only [List.map_cons]
      exact List.mem_cons_of_mem _ hm

/-- Lookup in an extended heap is unchanged for keys that resolve. -/
theorem lookupWin_append_left (hp l : List (Nat × SWindow)) (v : Nat)
    (h : lookupWin hp v ≠ none) : lookupWin (hp ++ l) v = lookupWin hp v := by
  induction hp with
  | nil => simp [lookupWin] at h
  | cons p t ih =>
    obtain ⟨k, w⟩ := p
    by_cases hv : k = v
    · simp [lookupWin, hv]
    · simp only [lookupWin, if_neg hv] at h ⊢
      exact ih h

/-- Lookup of an absent key in an extended heap reaches the extension. -/
theorem lookupWin_append_right (hp l : List (Nat × SWindow)) (v : Nat)
    (h : lookupWin hp v = none) : lookupWin (hp ++ l) v = lookupWin l v := by
  induction hp with
  | nil => simp
  | cons p t ih =>
    obtain ⟨k, w⟩ := p
    by_cases hv : k = v
    · simp [lookupWin, hv] at h
    · simp only [lookupWin, if_neg hv] at h
      simp only [List.cons_append, lookupWin, if_neg hv]
      exact ih h

/-- An absent key looks up to none. -/
theorem lookupWin_eq_none_of_not_mem (hp : List (Nat × SWindow)) (v : Nat)
    (h : v ∉ hp.map (fun p => p.1)) : lookupWin hp v = none := by
  induction hp with
  | nil => rfl
  | cons p t ih =>
    obtain ⟨k, w⟩ := p
    simp only [List.map_cons, List.mem_cons] at h
    push_neg at h
    have hk : ¬ k = v := fun hh => h.1 hh.symm
    simp only [lookupWin, if_neg hk]
    exact ih h.2

@[simp] theorem setWin_mid (yg : YutaniGlobals) (wid : Nat) (f : SWindow → SWindow) :
    (setWin yg wid f).mid_zs = yg.mid_zs := rfl

@[simp] theorem setWin_bottom (yg : YutaniGlobals) (wid : Nat) (f : SWindow → SWindow) :
    (setWin yg wid f).bottom_z = yg.bottom_z := rfl

@[simp] theorem setWin_top (yg : YutaniGlobals) (wid : Nat) (f : SWindow → SWindow) :
    (setWin yg wid f).top_z = yg.top_z := rfl

@[simp] theorem setWin_next_wid (yg : YutaniGlobals) (wid : Nat) (f : SWindow → SWindow) :
    (setWin yg wid f).next_wid = yg.next_wid := rfl

@[simp] theorem setWin_wids (yg : YutaniGlobals) (wid : Nat) (f : SWindow → SWindow) :
    (setWin yg wid f).wids_to_windows = yg.wids_to_windows := rfl

@[simp] theorem setWin_shm (yg : YutaniGlobals) (wid : Nat) (f : SWindow → SWindow) :
    (setWin yg wid f).shm = yg.shm := rfl

@[simp] theorem setWin_sent (yg : YutaniGlobals) (wid : Nat) (f : SWindow → SWindow) :
    (setWin yg wid f).sent = yg.sent := rfl

theorem heapKeys_setWin (yg : YutaniGlobals) (wid : Nat) (f : SWindow → SWindow) :
    heapKeys (setWin yg wid f) = heapKeys yg := by
  unfold heapKeys setWin
  exact setWinHeap_keys yg.heap wid f

/-- Heap lookup through setWin. -/
theorem getWinH_setWin (yg : YutaniGlobals) (wid v : Nat) (f : SWindow → SWindow) :
    getWinH (setWin yg wid f) v =
      if v = wid then (getWinH yg wid).map f else getWinH yg v := by
  unfold getWinH setWin
  exact lookupWin_setWinHeap yg.heap wid v f

/-- The z view is unchanged by a z-preserving heap update. -/
theorem getZ_setWin_zpres {f : SWindow → SWindow} (hf : ∀ w, (f w).z = w.z)
    (yg : YutaniGlobals) (wid : Nat) (v : Nat) : getZ (setWin yg wid f) v = getZ yg v := by
  unfold getZ
  rw [getWinH_setWin]
  by_cases h : v = wid
  · subst h
    cases getWinH yg v with
    | none => simp
    | some w => simp [hf]
  · simp [h]

/-- A wid with a z view is an allocated wid. -/
theorem mem_heapKeys_of_getZ {yg : YutaniGlobals} {v : Nat} (h : getZ yg v ≠ none) :
    v ∈ heapKeys yg := by
  apply mem_keys_of_lookupWin
  intro hc
  apply h
  unfold getZ getWinH
  rw [hc]
  rfl

/-- A z-preserving heap update preserves well-formedness. -/
theorem wf_setWin_zpres {f : SWindow → SWindow} (hf : ∀ w, (f w).z = w.z)
    {yg : YutaniGlobals} (h : WF yg) (wid : Nat) : WF (setWin yg wid f) := by
  unfold WF atMostOneTier at h ⊢
  simpa only [setWin_mid, setWin_bottom, setWin_top, setWin_next_wid, heapKeys_setWin,
    getZ_setWin_zpres hf] using h

/-- markWid only queues damage. -/
theorem wf_markWid {yg : YutaniGlobals} (h : WF yg) (wid : Nat) : WF (markWid yg wid) := by
  unfold markWid
  cases getWinH yg wid with
  | none => exact h
  | some w => exact h

/-- unorder_window does not change the allocated keys. -/
theorem heapKeys_unorder (yg : YutaniGlobals) (wid : Nat) :
    heapKeys (unorder_window yg wid) = heapKeys yg := by
  unfold unorder_window
  cases getWinH yg wid with
  | none => rfl
  | some w =>
    dsimp only
    split_ifs <;> simp [heapKeys, setWin, setWinHeap_keys]

/-- unorder_window does not change the wid counter. -/
theorem next_wid_unorder (yg : YutaniGlobals) (wid : Nat) :
    (unorder_window yg wid).next_wid = yg.next_wid := by
  unfold unorder_window
  cases getWinH yg wid with
  | none => rfl
  | some w =>
    dsimp only
    split_ifs <;> rfl

/-- The z view of any other window is unchanged by unorder_window. -/
theorem getZ_unorder_other (yg : YutaniGlobals) (wid v : Nat) (hne : ¬ v = wid) :
    getZ (unorder_window yg wid) v = getZ yg v := by
  unfold unorder_window
  cases getWinH yg wid with
  | none => rfl
  | some w =>
    dsimp only
    split_ifs <;> simp [getZ, getWinH, setWin, lookupWin_setWinHeap, hne]

/-- Heap lookup through unorder_window. -/
theorem getWinH_unorder (yg : YutaniGlobals) (wid v : Nat) :
    getWinH (unorder_window yg wid) v =
      if v = wid then (getWinH yg wid).map (fun ww => { ww with z := 65535 })
      else getWinH yg v := by
  unfold unorder_window
  cases h : getWinH yg wid with
  | none => by_cases hv : v = wid <;> simp [h, hv]
  | some w =>
    have h' : lookupWin yg.heap wid = some w := h
    dsimp only
    split_ifs <;> simp_all [getWinH, setWin, lookupWin_setWinHeap]

/-- Middle membership after unorder_window implies prior membership. -/
theorem mid_unorder_subset (yg : YutaniGlobals) (wid v : Nat)
    (hv : v ∈ (unorder_window yg wid).mid_zs) : v ∈ yg.mid_zs := by
  revert hv
  unfold unorder_window
  cases getWinH yg wid with
  | none => exact id
  | some w =>
    dsimp only
    intro hv
    split_ifs at hv
    · exact hv
    · exact hv
    · exact List.mem_of_mem_erase hv
    · exact hv

/-- Middle membership of any other window survives unorder_window. -/
theorem mid_unorder_mem_other (yg : YutaniGlobals) (wid v : Nat) (hne : v ≠ wid) :
    v ∈ (unorder_window yg wid).mid_zs ↔ v ∈ yg.mid_zs := by
  unfold unorder_window
  cases getWinH yg wid with
  | none => exact Iff.rfl
  | some w =>
    dsimp only
    split_ifs <;> simp [List.mem_erase_of_ne hne]

/-- The bottom slot after unorder_window held the same wid before. -/
theorem bottom_unorder_mono (yg : YutaniGlobals) (wid v : Nat)
    (h : (unorder_window yg wid).bottom_z = some v) : yg.bottom_z = some v := by
  revert h
  unfold unorder_window
  cases getWinH yg wid with
  | none => exact id
  | some w =>
    dsimp only
    intro h
    split_ifs at h
    all_goals exact h

/-- The top slot after unorder_window held the same wid before. -/
theorem top_unorder_mono (yg : YutaniGlobals) (wid v : Nat)
    (h : (unorder_window yg wid).top_z = some v) : yg.top_z = some v := by
  revert h
  unfold unorder_window
  cases getWinH yg wid with
  | none => exact id
  | some w =>
    dsimp only
    intro h
    split_ifs at h
    all_goals exact h

/-- The z view of another wid ignores a heap update elsewhere. -/
theorem getZ_setWin_other (yg : YutaniGlobals) (wid v : Nat) (f : SWindow → SWindow)
    (hne : ¬ v = wid) : getZ (setWin yg wid f) v = getZ yg v := by
  unfold getZ
  rw [getWinH_setWin]
  simp [hne]

/-- The z view of the updated wid after a heap update. -/
theorem getZ_setWin_self (yg : YutaniGlobals) (wid : Nat) (f : SWindow → SWindow) :
    getZ (setWin yg wid f) wid = (getWinH yg wid).map (fun w => (f w).z) := by
  unfold getZ
  rw [getWinH_setWin]
  simp [Option.map_map]
  rfl

/-- Membership in the list view of an option pins the option down. -/
theorem opt_toList_mem {o : Option Nat} {v : Nat} (h : v ∈ o.toList) : o = some v := by
  cases o with
  | none => simp at h
  | some a =>
    simp at h
    rw [h]

/-- After unorder_window the window belongs to no tier. -/
theorem unorder_notInTiers {yg : YutaniGlobals} (h : WF yg) (wid : Nat) :
    notInTiers (unorder_window yg wid) wid := by
  obtain ⟨ha, hnd, hc, hbz, htz, hd1, hd2⟩ := h
  unfold unorder_window
  cases hw : getWinH yg wid with
  | none =>
    have hz : getZ yg wid = none := by
      unfold getZ
      rw [hw]
      rfl
    refine ⟨?_, ?_, ?_⟩
    · intro hm
      exact (hc wid hm).1 hz
    · intro hb
      have := hbz wid (by rw [hb]; simp)
      rw [hz] at this
      exact Option.noConfusion this
    · intro ht
      have := htz wid (by rw [ht]; simp)
      rw [hz] at this
      exact Option.noConfusion this
  | some w =>
    have hz : getZ yg wid = some w.z := by
      unfold getZ
      rw [hw]
      rfl
    dsimp only
    split_ifs with h1 h2 h3
    · refine ⟨?_, ?_, ?_⟩
      · intro hm
        have hm' : wid ∈ yg.mid_zs := hm
        have := (hc wid hm').2.1
        rw [hz, h1] at this
        exact this rfl
      · intro hb
        simp at hb
      · intro ht
        have ht' : yg.top_z = some wid := ht
        have := htz wid (by rw [ht']; simp)
        rw [hz] at this
        have hzz := Option.some.inj this
        rw [h1] at hzz
        exact (by decide : ¬ YUTANI_ZORDER_BOTTOM = YUTANI_ZORDER_TOP) hzz
    · refine ⟨?_, ?_, ?_⟩
      · intro hm
        have hm' : wid ∈ yg.mid_zs := hm
        have := (hc wid hm').2.2
        rw [hz, h2] at this
        exact this rfl
      · intro hb
        have hb' : yg.bottom_z = some wid := hb
        have := hbz wid (by rw [hb']; simp)
        rw [hz] at this
        have hzz := Option.some.inj this
        rw [h2] at hzz
        exact (by decide : ¬ YUTANI_ZORDER_TOP = YUTANI_ZORDER_BOTTOM) hzz
      · intro ht
        simp at ht
    · refine ⟨?_, ?_, ?_⟩
      · intro hm
        have hm' : wid ∈ yg.mid_zs.erase wid := hm
        exact ((List.Nodup.mem_erase_iff hnd).mp hm').1 rfl
      · intro hb
        have hb' : yg.bottom_z = some wid := hb
        have := hbz wid (by rw [hb']; simp)
        rw [hz] at this
        exact h1 (Option.some.inj this)
      · intro ht
        have ht' : yg.top_z = some wid := ht
        have := htz wid (by rw [ht']; simp)
        rw [hz] at this
        exact h2 (Option.some.inj this)
    · refine ⟨?_, ?_, ?_⟩
      · intro hm
        exact h3 hm
      · intro hb
        have hb' : yg.bottom_z = some wid := hb
        have := hbz wid (by rw [hb']; simp)
        rw [hz] at this
        exact h1 (Option.some.inj this)
      · intro ht
        have ht' : yg.top_z = some wid := ht
        have := htz wid (by rw [ht']; simp)
        rw [hz] at this
        exact h2 (Option.some.inj this)

/-- unorder_window preserves well-formedness. -/
theorem wf_unorder {yg : YutaniGlobals} (h : WF yg) (wid : Nat) : WF (unorder_window yg wid) := by
  obtain ⟨ha, hnd, hc, hbz, htz, hd1, hd2⟩ := h
  unfold unorder_window
  cases hw : getWinH yg wid with
  | none => exact ⟨ha, hnd, hc, hbz, htz, hd1, hd2⟩
  | some w =>
    have hz : getZ yg wid = some w.z := by
      unfold getZ
      rw [hw]
      rfl
    dsimp only
    split_ifs with h1 h2 h3
    · have hwid_mid : wid ∉ yg.mid_zs := by
        intro hm
        have := (hc wid hm).2.1
        rw [hz, h1] at this
        exact this rfl
      have hwid_top : yg.top_z ≠ some wid := by
        intro ht
        have := htz wid (by rw [ht]; simp)
        rw [hz] at this
        have hzz := Option.some.inj this
        rw [h1] at hzz
        exact (by decide : ¬ YUTANI_ZORDER_BOTTOM = YUTANI_ZORDER_TOP) hzz
      refine ⟨?_, ?_, ?_, ?_, ?_, ?_, ?_⟩
      · show ∀ k ∈ heapKeys (setWin yg wid fun ww => { ww with z := 65535 }), k < yg.next_wid
        rw [heapKeys_setWin]
        exact ha
      · show yg.mid_zs.Nodup
        exact hnd
      · show ∀ v ∈ yg.mid_zs,
            getZ (setWin yg wid fun ww => { ww with z := 65535 }) v ≠ none ∧
            getZ (setWin yg wid fun ww => { ww with z := 65535 }) v ≠ some YUTANI_ZORDER_BOTTOM ∧
            getZ (setWin yg wid fun ww => { ww with z := 65535 }) v ≠ some YUTANI_ZORDER_TOP
        intro v hv
        have hvne : ¬ v = wid := fun e => hwid_mid (e ▸ hv)
        rw [getZ_setWin_other yg wid v _ hvne]
        exact hc v hv
      · show ∀ v ∈ (none : Option Nat).toList,
            getZ (setWin yg wid fun ww => { ww with z := 65535 }) v = some YUTANI_ZORDER_BOTTOM
        intro v hv
        simp at hv
      · show ∀ v ∈ yg.top_z.toList,
            getZ (setWin yg wid fun ww => { ww with z := 65535 }) v = some YUTANI_ZORDER_TOP
        intro v hv
        have hvs := opt_toList_mem hv
        have hvne : ¬ v = wid := by
          intro e
          subst e
          exact hwid_top hvs
        rw [getZ_setWin_other yg wid v _ hvne]
        exact htz v hv
      · show ∀ v ∈ yg.mid_zs, (none : Option Nat) ≠ some v ∧ yg.top_z ≠ some v
        intro v hv
        exact ⟨by simp, (hd1 v hv).2⟩
      · show ∀ v ∈ (none : Option Nat).toList, yg.top_z ≠ some v
        intro v hv
        simp at hv
    · have hwid_mid : wid ∉ yg.mid_zs := by
        intro hm
        have := (hc wid hm).2.2
        rw [hz, h2] at this
        exact this rfl
      have hwid_bot : yg.bottom_z ≠ some wid := by
        intro hb
        have := hbz wid (by rw [hb]; simp)
        rw [hz] at this
        have hzz := Option.some.inj this
        rw [h2] at hzz
        exact (by decide : ¬ YUTANI_ZORDER_TOP = YUTANI_ZORDER_BOTTOM) hzz
      refine ⟨?_, ?_, ?_, ?_, ?_, ?_, ?_⟩
      · show ∀ k ∈ heapKeys (setWin yg wid fun ww => { ww with z := 65535 }), k < yg.next_wid
        rw [heapKeys_setWin]
        exact ha
      · show yg.mid_zs.Nodup
        exact hnd
      · show ∀ v ∈ yg.mid_zs,
            getZ (setWin yg wid fun ww => { ww with z := 65535 }) v ≠ none ∧
            getZ (setWin yg wid fun ww => { ww with z := 65535 }) v ≠ some YUTANI_ZORDER_BOTTOM ∧
            getZ (setWin yg wid fun ww => { ww with z := 65535 }) v ≠ some YUTANI_ZORDER_TOP
        intro v hv
        have hvne : ¬ v = wid := fun e => hwid_mid (e ▸ hv)
        rw [getZ_setWin_other yg wid v _ hvne]
        exact hc v hv
      · show ∀ v ∈ yg.bottom_z.toList,
            getZ (setWin yg wid fun ww => { ww with z := 65535 }) v = some YUTANI_ZORDER_BOTTOM
        intro v hv
        have hvs := opt_toList_mem hv
        have hvne : ¬ v = wid := by
          intro e
          subst e
          exact hwid_bot hvs
        rw [getZ_setWin_other yg wid v _ hvne]
        exact hbz v hv
      · show ∀ v ∈ (none : Option Nat).toList,
            getZ (setWin yg wid fun ww => { ww with z := 65535 }) v = some YUTANI_ZORDER_TOP
        intro v hv
        simp at hv
      · show ∀ v ∈ yg.mid_zs, yg.bottom_z ≠ some v ∧ (none : Option Nat) ≠ some v
        intro v hv
        exact ⟨(hd1 v hv).1, by simp⟩
      · show ∀ v ∈ yg.bottom_z.toList, (none : Option Nat) ≠ some v
        intro v hv
        simp
    · have hwid_bot : yg.bottom_z ≠ some wid := by
        intro hb
        have := hbz wid (by rw [hb]; simp)
        rw [hz] at this
        exact h1 (Option.some.inj this)
      have hwid_top : yg.top_z ≠ some wid := by
        intro ht
        have := htz wid (by rw [ht]; simp)
        rw [hz] at this
        exact h2 (Option.some.inj this)
      refine ⟨?_, ?_, ?_, ?_, ?_, ?_, ?_⟩
      · show ∀ k ∈ heapKeys (setWin yg wid fun ww => { ww with z := 65535 }), k < yg.next_wid
        rw [heapKeys_setWin]
        exact ha
      · show (yg.mid_zs.erase wid).Nodup
        exact List.Nodup.erase _ hnd
      · show ∀ v ∈ yg.mid_zs.erase wid,
            getZ (setWin yg wid fun ww => { ww with z := 65535 }) v ≠ none ∧
            getZ (setWin yg wid fun ww => { ww with z := 65535 }) v ≠ some YUTANI_ZORDER_BOTTOM ∧
            getZ (setWin yg wid fun ww => { ww with z := 65535 }) v ≠ some YUTANI_ZORDER_TOP
        intro v hv
        obtain ⟨hvne, hvm⟩ := (List.Nodup.mem_erase_iff hnd).mp hv
        rw [getZ_setWin_other yg wid v _ hvne]
        exact hc v hvm
      · show ∀ v ∈ yg.bottom_z.toList,
            getZ (setWin yg wid fun ww => { ww with z := 65535 }) v = some YUTANI_ZORDER_BOTTOM
        intro v hv
        have hvs := opt_toList_mem hv
        have hvne : ¬ v = wid := by
          intro e
          subst e
          exact hwid_bot hvs
        rw [getZ_setWin_other yg wid v _ hvne]
        exact hbz v hv
      · show ∀ v ∈ yg.top_z.toList,
            getZ (setWin yg wid fun ww => { ww with z := 65535 }) v = some YUTANI_ZORDER_TOP
        intro v hv
        have hvs := opt_toList_mem hv
        have hvne : ¬ v = wid := by
          intro e
          subst e
          exact hwid_top hvs
        rw [getZ_setWin_other yg wid v _ hvne]
        exact htz v hv
      · show ∀ v ∈ yg.mid_zs.erase wid, yg.bottom_z ≠ some v ∧ yg.top_z ≠ some v
        intro v hv
        exact hd1 v (List.mem_of_mem_erase hv)
      · show ∀ v ∈ yg.bottom_z.toList, yg.top_z ≠ some v
        exact hd2
    · have hwid_bot : yg.bottom_z ≠ some wid := by
        intro hb
        have := hbz wid (by rw [hb]; simp)
        rw [hz] at this
        exact h1 (Option.some.inj this)
      have hwid_top : yg.top_z ≠ some wid := by
        intro ht
        have := htz wid (by rw [ht]; simp)
        rw [hz] at this
        exact h2 (Option.some.inj this)
      refine ⟨?_, ?_, ?_, ?_, ?_, ?_, ?_⟩
      · show ∀ k ∈ heapKeys (setWin yg wid fun ww => { ww with z := 65535 }), k < yg.next_wid
        rw [heapKeys_setWin]
        exact ha
      · show yg.mid_zs.Nodup
        exact hnd
      · show ∀ v ∈ yg.mid_zs,
            getZ (setWin yg wid fun ww => { ww with z := 65535 }) v ≠ none ∧
            getZ (setWin yg wid fun ww => { ww with z := 65535 }) v ≠ some YUTANI_ZORDER_BOTTOM ∧
            getZ (setWin yg wid fun ww => { ww with z := 65535 }) v ≠ some YUTANI_ZORDER_TOP
        intro v hv
        have hvne : ¬ v = wid := fun e => h3 (e ▸ hv)
        rw [getZ_setWin_other yg wid v _ hvne]
        exact hc v hv
      · show ∀ v ∈ yg.bottom_z.toList,
            getZ (setWin yg wid fun ww => { ww with z := 65535 }) v = some YUTANI_ZORDER_BOTTOM
        intro v hv
        have hvs := opt_toList_mem hv
        have hvne : ¬ v = wid := by
          intro e
          subst e
          exact hwid_bot hvs
        rw [getZ_setWin_other yg wid v _ hvne]
        exact hbz v hv
      · show ∀ v ∈ yg.top_z.toList,
            getZ (setWin yg wid fun ww => { ww with z := 65535 }) v = some YUTANI_ZORDER_TOP
        intro v hv
        have hvs := opt_toList_mem hv
        have hvne : ¬ v = wid := by
          intro e
          subst e
          exact hwid_top hvs
        rw [getZ_setWin_other yg wid v _ hvne]
        exact htz v hv
      · show ∀ v ∈ yg.mid_zs, yg.bottom_z ≠ some v ∧ yg.top_z ≠ some v
        exact hd1
      · show ∀ v ∈ yg.bottom_z.toList, yg.top_z ≠ some v
        exact hd2

/-- A heap update of a window outside every tier preserves
well-formedness regardless of what the update does to the z field. -/
theorem wf_setWin_notInTiers {yg : YutaniGlobals} (h : WF yg) {wid : Nat}
    (hni : notInTiers yg wid) (f : SWindow → SWindow) : WF (setWin yg wid f) := by
  obtain ⟨ha, hnd, hc, hbz, htz, hd1, hd2⟩ := h
  obtain ⟨hm, hb, ht⟩ := hni
  refine ⟨?_, ?_, ?_, ?_, ?_, ?_, ?_⟩
  · rw [heapKeys_setWin]
    exact ha
  · show yg.mid_zs.Nodup
    exact hnd
  · show ∀ v ∈ yg.mid_zs, getZ (setWin yg wid f) v ≠ none ∧
        getZ (setWin yg wid f) v ≠ some YUTANI_ZORDER_BOTTOM ∧
        getZ (setWin yg wid f) v ≠ some YUTANI_ZORDER_TOP
    intro v hv
    have hvne : ¬ v = wid := fun e => hm (e ▸ hv)
    rw [getZ_setWin_other yg wid v f hvne]
    exact hc v hv
  · show ∀ v ∈ yg.bottom_z.toList, getZ (setWin yg wid f) v = some YUTANI_ZORDER_BOTTOM
    intro v hv
    have hvs := opt_toList_mem hv
    have hvne : ¬ v = wid := fun e => hb (e ▸ hvs)
    rw [getZ_setWin_other yg wid v f hvne]
    exact hbz v hv
  · show ∀ v ∈ yg.top_z.toList, getZ (setWin yg wid f) v = some YUTANI_ZORDER_TOP
    intro v hv
    have hvs := opt_toList_mem hv
    have hvne : ¬ v = wid := fun e => ht (e ▸ hvs)
    rw [getZ_setWin_other yg wid v f hvne]
    exact htz v hv
  · show ∀ v ∈ yg.mid_zs, yg.bottom_z ≠ some v ∧ yg.top_z ≠ some v
    exact hd1
  · show ∀ v ∈ yg.bottom_z.toList, yg.top_z ≠ some v
    exact hd2

/-- A window in the TOP slot of a well-formed state is not in the
middle list. -/
theorem top_not_in_mid {yg : YutaniGlobals} (h : WF yg) {v : Nat}
    (hv : yg.top_z = some v) : v ∉ yg.mid_zs := by
  obtain ⟨_, _, _, _, _, hd1, _⟩ := h
  intro hm
  exact (hd1 v hm).2 hv

/-- A window in the BOTTOM slot of a well-formed state is not in the
middle list. -/
theorem bottom_not_in_mid {yg : YutaniGlobals} (h : WF yg) {v : Nat}
    (hv : yg.bottom_z = some v) : v ∉ yg.mid_zs := by
  obtain ⟨_, _, _, _, _, hd1, _⟩ := h
  intro hm
  exact (hd1 v hm).1 hv

/-- Full characterization of reorder_window on a well-formed state: it
is well-formedness preserving; the window lands in exactly the tier the
new z names, with the new z stored; and when an occupied BOTTOM or TOP
slot is overwritten, the previous occupant ends up in no tier at all
(it is not moved into the middle list). -/
theorem reorder_spec {yg : YutaniGlobals} (h : WF yg) (wid : Nat) (new_zed : Nat)
    (hsome : getWinH yg wid ≠ none) :
    WF (reorder_window yg wid new_zed) ∧
    getZ (reorder_window yg wid new_zed) wid = some new_zed ∧
    ((new_zed ≠ YUTANI_ZORDER_TOP ∧ new_zed ≠ YUTANI_ZORDER_BOTTOM) →
      wid ∈ (reorder_window yg wid new_zed).mid_zs ∧
      (reorder_window yg wid new_zed).bottom_z ≠ some wid ∧
      (reorder_window yg wid new_zed).top_z ≠ some wid) ∧
    (new_zed = YUTANI_ZORDER_TOP →
      (reorder_window yg wid new_zed).top_z = some wid ∧
      wid ∉ (reorder_window yg wid new_zed).mid_zs ∧
      (reorder_window yg wid new_zed).bottom_z ≠ some wid ∧
      (∀ v, yg.top_z = some v → v ≠ wid → notInTiers (reorder_window yg wid new_zed) v)) ∧
    (new_zed = YUTANI_ZORDER_BOTTOM →
      (reorder_window yg wid new_zed).bottom_z = some wid ∧
      wid ∉ (reorder_window yg wid new_zed).mid_zs ∧
      (reorder_window yg wid new_zed).top_z ≠ some wid ∧
      (∀ v, yg.bottom_z = some v → v ≠ wid → notInTiers (reorder_window yg wid new_zed) v)) := by
  have hU : WF (unorder_window yg wid) := wf_unorder h wid
  have hUni : notInTiers (unorder_window yg wid) wid := unorder_notInTiers h wid
  have hUsome : getWinH (unorder_window yg wid) wid ≠ none := by
    rw [getWinH_unorder]
    simp only [if_pos rfl]
    cases hg : getWinH yg wid with
    | none => exact absurd hg hsome
    | some w => simp
  unfold reorder_window
  dsimp only
  set U := unorder_window yg wid with hUdef
  set Y2 := setWin U wid (fun ww => { ww with z := new_zed }) with hY2def
  have hY2wf : WF Y2 := wf_setWin_notInTiers hU hUni _
  have hY2ni : notInTiers Y2 wid := hUni
  have hY2z : getZ Y2 wid = some new_zed := by
    rw [hY2def, getZ_setWin_self]
    cases hg : getWinH U wid with
    | none => exact absurd hg hUsome
    | some w => simp
  obtain ⟨ha2, hnd2, hc2, hb2, ht2, hd12, hd22⟩ := hY2wf
  obtain ⟨hm2, hbni2, htni2⟩ := hY2ni
  have hY2wf' : WF Y2 := ⟨ha2, hnd2, hc2, hb2, ht2, hd12, hd22⟩
  split_ifs with hmid htop
  · -- middle tier insertion
    refine ⟨⟨?_, ?_, ?_, ?_, ?_, ?_, ?_⟩, ?_, ?_, ?_, ?_⟩
    · show ∀ k ∈ heapKeys Y2, k < Y2.next_wid
      exact ha2
    · show (Y2.mid_zs ++ [wid]).Nodup
      rw [List.nodup_append]
      refine ⟨hnd2, List.nodup_singleton _, ?_⟩
      intro a ha1 ha2'
      simp at ha2'
      subst ha2'
      exact hm2 ha1
    · show ∀ v ∈ Y2.mid_zs ++ [wid], getZ Y2 v ≠ none ∧
          getZ Y2 v ≠ some YUTANI_ZORDER_BOTTOM ∧ getZ Y2 v ≠ some YUTANI_ZORDER_TOP
      intro v hv
      rcases List.mem_append.mp hv with hvm | hvw
      · exact hc2 v hvm
      · simp at hvw
        subst hvw
        rw [hY2z]
        refine ⟨by simp, ?_, ?_⟩
        · intro e
          exact hmid.2 (Option.some.inj e)
        · intro e
          exact hmid.1 (Option.some.inj e)
    · show ∀ v ∈ Y2.bottom_z.toList, getZ Y2 v = some YUTANI_ZORDER_BOTTOM
      exact hb2
    · show ∀ v ∈ Y2.top_z.toList, getZ Y2 v = some YUTANI_ZORDER_TOP
      exact ht2
    · show ∀ v ∈ Y2.mid_zs ++ [wid], Y2.bottom_z ≠ some v ∧ Y2.top_z ≠ some v
      intro v hv
      rcases List.mem_append.mp hv with hvm | hvw
      · exact hd12 v hvm
      · simp at hvw
        subst hvw
        exact ⟨hbni2, htni2⟩
    · show ∀ v ∈ Y2.bottom_z.toList, Y2.top_z ≠ some v
      exact hd22
    · show getZ Y2 wid = some new_zed
      exact hY2z
    · intro _
      refine ⟨?_, hbni2, htni2⟩
      show wid ∈ Y2.mid_zs ++ [wid]
      simp
    · intro he
      exact absurd he hmid.1
    · intro he
      exact absurd he hmid.2
  · -- TOP slot
    cases hT2 : Y2.top_z with
    | none =>
      refine ⟨⟨?_, ?_, ?_, ?_, ?_, ?_, ?_⟩, ?_, ?_, ?_, ?_⟩
      · show ∀ k ∈ heapKeys Y2, k < Y2.next_wid
        exact ha2
      · show Y2.mid_zs.Nodup
        exact hnd2
      · show ∀ v ∈ Y2.mid_zs, getZ Y2 v ≠ none ∧
            getZ Y2 v ≠ some YUTANI_ZORDER_BOTTOM ∧ getZ Y2 v ≠ some YUTANI_ZORDER_TOP
        exact hc2
      · show ∀ v ∈ Y2.bottom_z.toList, getZ Y2 v = some YUTANI_ZORDER_BOTTOM
        exact hb2
      · show ∀ v ∈ (some wid).toList, getZ Y2 v = some YUTANI_ZORDER_TOP
        intro v hv
        simp at hv
        subst hv
        rw [hY2z, htop]
      · show ∀ v ∈ Y2.mid_zs, Y2.bottom_z ≠ some v ∧ (some wid : Option Nat) ≠ some v
        intro v hv
        refine ⟨(hd12 v hv).1, ?_⟩
        intro e
        have := Option.some.inj e
        subst this
        exact hm2 hv
      · show ∀ v ∈ Y2.bottom_z.toList, (some wid : Option Nat) ≠ some v
        intro v hv
        intro e
        have := Option.some.inj e
        subst this
        exact hbni2 (opt_toList_mem hv)
      · show getZ Y2 wid = some new_zed
        exact hY2z
      · intro hne
        exact absurd htop hne.1
      · intro _
        refine ⟨rfl, hm2, hbni2, ?_⟩
        intro v hv hvne
        -- the TOP occupant of yg was orphaned by the first unorder
        have hvnm : v ∉ yg.mid_zs := top_not_in_mid h hv
        refine ⟨?_, ?_, ?_⟩
        · show v ∉ Y2.mid_zs
          intro hmem
          exact hvnm (mid_unorder_subset yg wid v hmem)
        · show Y2.bottom_z ≠ some v
          intro hb
          have hb' : yg.bottom_z = some v := bottom_unorder_mono yg wid v hb
          obtain ⟨_, _, _, _, _, _, hd2y⟩ := h
          exact hd2y v (by rw [hb']; simp) hv
        · show (some wid : Option Nat) ≠ some v
          intro e
          exact hvne (Option.some.inj e).symm
      · intro he
        rw [he] at htop
        exact absurd htop (by decide)
    | some t =>
      have htne : t ≠ wid := by
        intro e
        subst e
        exact htni2 hT2
      have hY3wf : WF (unorder_window Y2 t) := wf_unorder hY2wf' t
      have hY3ni : notInTiers (unorder_window Y2 t) t := unorder_notInTiers hY2wf' t
      obtain ⟨ha3, hnd3, hc3, hb3, ht3, hd13, hd23⟩ := hY3wf
      have hwid3m : wid ∉ (unorder_window Y2 t).mid_zs := by
        intro hm
        exact hm2 (mid_unorder_subset Y2 t wid hm)
      have hwid3b : (unorder_window Y2 t).bottom_z ≠ some wid := by
        intro hb
        exact hbni2 (bottom_unorder_mono Y2 t wid hb)
      have hz3 : getZ (unorder_window Y2 t) wid = some new_zed := by
        rw [getZ_unorder_other Y2 t wid (fun e => htne e.symm)]
        exact hY2z
      refine ⟨⟨?_, ?_, ?_, ?_, ?_, ?_, ?_⟩, ?_, ?_, ?_, ?_⟩
      · show ∀ k ∈ heapKeys (unorder_window Y2 t), k < (unorder_window Y2 t).next_wid
        exact ha3
      · show (unorder_window Y2 t).mid_zs.Nodup
        exact hnd3
      · show ∀ v ∈ (unorder_window Y2 t).mid_zs, getZ (unorder_window Y2 t) v ≠ none ∧
            getZ (unorder_window Y2 t) v ≠ some YUTANI_ZORDER_BOTTOM ∧
            getZ (unorder_window Y2 t) v ≠ some YUTANI_ZORDER_TOP
        exact hc3
      · show ∀ v ∈ (unorder_window Y2 t).bottom_z.toList,
            getZ (unorder_window Y2 t) v = some YUTANI_ZORDER_BOTTOM
        exact hb3
      · show ∀ v ∈ (some wid).toList, getZ (unorder_window Y2 t) v = some YUTANI_ZORDER_TOP
        intro v hv
        simp at hv
        subst hv
        rw [hz3, htop]
      · show ∀ v ∈ (unorder_window Y2 t).mid_zs,
            (unorder_window Y2 t).bottom_z ≠ some v ∧ (some wid : Option Nat) ≠ some v
        intro v hv
        refine ⟨(hd13 v hv).1, ?_⟩
        intro e
        have := Option.some.inj e
        subst this
        exact hwid3m hv
      · show ∀ v ∈ (unorder_window Y2 t).bottom_z.toList, (some wid : Option Nat) ≠ some v
        intro v hv
        intro e
        have := Option.some.inj e
        subst this
        exact hwid3b (opt_toList_mem hv)
      · show getZ (unorder_window Y2 t) wid = some new_zed
        exact hz3
      · intro hne
        exact absurd htop hne.1
      · intro _
        refine ⟨rfl, hwid3m, hwid3b, ?_⟩
        intro v hv hvne
        have hvt : v = t := by
          have h1 := top_unorder_mono yg wid t hT2
          rw [hv] at h1
          exact Option.some.inj h1
        subst hvt
        obtain ⟨hA, hB, hC⟩ := hY3ni
        refine ⟨hA, hB, ?_⟩
        intro e
        exact hvne (Option.some.inj e).symm
      · intro he
        rw [he] at htop
        exact absurd htop (by decide)
  · -- BOTTOM slot
    have hbot : new_zed = YUTANI_ZORDER_BOTTOM := by
      push_neg at hmid
      exact hmid (by intro e; exact htop e)
    cases hB2 : Y2.bottom_z with
    | none =>
      refine ⟨⟨?_, ?_, ?_, ?_, ?_, ?_, ?_⟩, ?_, ?_, ?_, ?_⟩
      · show ∀ k ∈ heapKeys Y2, k < Y2.next_wid
        exact ha2
      · show Y2.mid_zs.Nodup
        exact hnd2
      · show ∀ v ∈ Y2.mid_zs, getZ Y2 v ≠ none ∧
            getZ Y2 v ≠ some YUTANI_ZORDER_BOTTOM ∧ getZ Y2 v ≠ some YUTANI_ZORDER_TOP
        exact hc2
      · show ∀ v ∈ (some wid).toList, getZ Y2 v = some YUTANI_ZORDER_BOTTOM
        intro v hv
        simp at hv
        subst hv
        rw [hY2z, hbot]
      · show ∀ v ∈ Y2.top_z.toList, getZ Y2 v = some YUTANI_ZORDER_TOP
        exact ht2
      · show ∀ v ∈ Y2.mid_zs, (some wid : Option Nat) ≠ some v ∧ Y2.top_z ≠ some v
        intro v hv
        refine ⟨?_, (hd12 v hv).2⟩
        intro e
        have := Option.some.inj e
        subst this
        exact hm2 hv
      · show ∀ v ∈ (some wid).toList, Y2.top_z ≠ some v
        intro v hv
        simp at hv
        subst hv
        exact htni2
      · show getZ Y2 wid = some new_zed
        exact hY2z
      · intro hne
        exact absurd hbot hne.2
      · intro he
        rw [hbot] at he
        exact absurd he.symm (by decide)
      · intro _
        refine ⟨rfl, hm2, htni2, ?_⟩
        intro v hv hvne
        have hvnm : v ∉ yg.mid_zs := bottom_not_in_mid h hv
        refine ⟨?_, ?_, ?_⟩
        · show v ∉ Y2.mid_zs
          intro hmem
          exact hvnm (mid_unorder_subset yg wid v hmem)
        · show (some wid : Option Nat) ≠ some v
          intro e
          exact hvne (Option.some.inj e).symm
        · show Y2.top_z ≠ some v
          intro ht'
          have ht'' : yg.top_z = some v := top_unorder_mono yg wid v ht'
          obtain ⟨_, _, _, _, _, _, hd2y⟩ := h
          exact hd2y v (by rw [hv]; simp) ht''
    | some t =>
      have htne : t ≠ wid := by
        intro e
        subst e
        exact hbni2 hB2
      have hY3wf : WF (unorder_window Y2 t) := wf_unorder hY2wf' t
      have hY3ni : notInTiers (unorder_window Y2 t) t := unorder_notInTiers hY2wf' t
      obtain ⟨ha3, hnd3, hc3, hb3, ht3, hd13, hd23⟩ := hY3wf
      have hwid3m : wid ∉ (unorder_window Y2 t).mid_zs := by
        intro hm
        exact hm2 (mid_unorder_subset Y2 t wid hm)
      have hwid3t : (unorder_window Y2 t).top_z ≠ some wid := by
        intro hb
        exact htni2 (top_unorder_mono Y2 t wid hb)
      have hz3 : getZ (unorder_window Y2 t) wid = some new_zed := by
        rw [getZ_unorder_other Y2 t wid (fun e => htne e.symm)]
        exact hY2z
      refine ⟨⟨?_, ?_, ?_, ?_, ?_, ?_, ?_⟩, ?_, ?_, ?_, ?_⟩
      · show ∀ k ∈ heapKeys (unorder_window Y2 t), k < (unorder_window Y2 t).next_wid
        exact ha3
      · show (unorder_window Y2 t).mid_zs.Nodup
        exact hnd3
      · show ∀ v ∈ (unorder_window Y2 t).mid_zs, getZ (unorder_window Y2 t) v ≠ none ∧
            getZ (unorder_window Y2 t) v ≠ some YUTANI_ZORDER_BOTTOM ∧
            getZ (unorder_window Y2 t) v ≠ some YUTANI_ZORDER_TOP
        exact hc3
      · show ∀ v ∈ (some wid).toList, getZ (unorder_window Y2 t) v = some YUTANI_ZORDER_BOTTOM
        intro v hv
        simp at hv
        subst hv
        rw [hz3, hbot]
      · show ∀ v ∈ (unorder_window Y2 t).top_z.toList,
            getZ (unorder_window Y2 t) v = some YUTANI_ZORDER_TOP
        exact ht3
      · show ∀ v ∈ (unorder_window Y2 t).mid_zs,
            (some wid : Option Nat) ≠ some v ∧ (unorder_window Y2 t).top_z ≠ some v
        intro v hv
        refine ⟨?_, (hd13 v hv).2⟩
        intro e
        have := Option.some.inj e
        subst this
        exact hwid3m hv
      · show ∀ v ∈ (some wid).toList, (unorder_window Y2 t).top_z ≠ some v
        intro v hv
        simp at hv
        subst hv
        exact hwid3t
      · show getZ (unorder_window Y2 t) wid = some new_zed
        exact hz3
      · intro hne
        exact absurd hbot hne.2
      · intro he
        rw [hbot] at he
        exact absurd he.symm (by decide)
      · intro _
        refine ⟨rfl, hwid3m, hwid3t, ?_⟩
        intro v hv hvne
        have hvt : v = t := by
          have h1 := bottom_unorder_mono yg wid t hB2
          rw [hv] at h1
          exact Option.some.inj h1
        subst hvt
        obtain ⟨hA, hB, hC⟩ := hY3ni
        refine ⟨hA, ?_, hC⟩
        intro e
        exact hvne (Option.some.inj e).symm

/-- reorder_window preserves well-formedness. -/
theorem wf_reorder {yg : YutaniGlobals} (h : WF yg) (wid : Nat) (new_zed : Nat)
    (hsome : getWinH yg wid ≠ none) : WF (reorder_window yg wid new_zed) :=
  (reorder_spec h wid new_zed hsome).1

/-- make_top preserves well-formedness: it only rotates the middle list. -/
theorem wf_make_top {yg : YutaniGlobals} (h : WF yg) (wid : Nat) : WF (make_top yg wid) := by
  obtain ⟨ha, hnd, hc, hbz, htz, hd1, hd2⟩ := h
  unfold make_top
  cases getWinH yg wid with
  | none => exact ⟨ha, hnd, hc, hbz, htz, hd1, hd2⟩
  | some w =>
    dsimp only
    split_ifs with h1 h2 h3
    · exact ⟨ha, hnd, hc, hbz, htz, hd1, hd2⟩
    · exact ⟨ha, hnd, hc, hbz, htz, hd1, hd2⟩
    · have hmem_iff : ∀ v, v ∈ yg.mid_zs.erase wid ++ [wid] ↔ v ∈ yg.mid_zs := by
        intro v
        by_cases hv : v = wid
        · subst hv
          simp [h3]
        · rw [List.mem_append]
          simp [List.mem_erase_of_ne hv, hv]
      refine ⟨ha, ?_, ?_, hbz, htz, ?_, hd2⟩
      · show (yg.mid_zs.erase wid ++ [wid]).Nodup
        rw [List.nodup_append]
        refine ⟨List.Nodup.erase _ hnd, List.nodup_singleton _, ?_⟩
        intro a ha1 ha2
        simp at ha2
        subst ha2
        exact ((List.Nodup.mem_erase_iff hnd).mp ha1).1 rfl
      · show ∀ v ∈ yg.mid_zs.erase wid ++ [wid], getZ yg v ≠ none ∧
            getZ yg v ≠ some YUTANI_ZORDER_BOTTOM ∧ getZ yg v ≠ some YUTANI_ZORDER_TOP
        intro v hv
        exact hc v ((hmem_iff v).mp hv)
      · show ∀ v ∈ yg.mid_zs.erase wid ++ [wid], yg.bottom_z ≠ some v ∧ yg.top_z ≠ some v
        intro v hv
        exact hd1 v ((hmem_iff v).mp hv)
    · exact ⟨ha, hnd, hc, hbz, htz, hd1, hd2⟩

/-- set_focused_window preserves well-formedness: besides sends and the
focus pointer, it only runs make_top. -/
theorem wf_set_focused_window {yg : YutaniGlobals} (h : WF yg) (w : Option Nat) :
    WF (set_focused_window yg w) := by
  unfold set_focused_window
  split_ifs with h1
  · exact h
  · dsimp only
    repeat' split
    all_goals first
      | exact h
      | (refine wf_make_top ?_ _; exact h)

/-- set_focused_at preserves well-formedness. -/
theorem wf_set_focused_at {yg : YutaniGlobals} (h : WF yg) (x y : Int) :
    WF (set_focused_at yg x y) :=
  wf_set_focused_window h _

/-- mouse_start_drag preserves well-formedness. -/
theorem wf_mouse_start_drag {yg : YutaniGlobals} (h : WF yg) : WF (mouse_start_drag yg) := by
  unfold mouse_start_drag
  have h1 : WF (set_focused_at yg (cdiv yg.mouse_x MOUSE_SCALE) (cdiv yg.mouse_y MOUSE_SCALE)) :=
    wf_set_focused_at h _ _
  dsimp only
  repeat' split
  all_goals first
    | exact h1
    | (refine wf_make_top ?_ _; exact h1)

/-- mouse_start_resize preserves well-formedness. -/
theorem wf_mouse_start_resize {yg : YutaniGlobals} (h : WF yg) : WF (mouse_start_resize yg) := by
  unfold mouse_start_resize
  have h1 : WF (set_focused_at yg (cdiv yg.mouse_x MOUSE_SCALE) (cdiv yg.mouse_y MOUSE_SCALE)) :=
    wf_set_focused_at h _ _
  dsimp only
  repeat' split
  all_goals first
    | exact h1
    | (refine wf_make_top ?_ _; exact h1)

/-- Appending a fresh key does not disturb other lookups. -/
theorem lookupWin_append_single_other (hp : List (Nat × SWindow)) (k v : Nat) (w : SWindow)
    (hne : ¬ v = k) : lookupWin (hp ++ [(k, w)]) v = lookupWin hp v := by
  induction hp with
  | nil =>
    have hkv : ¬ k = v := fun e => hne e.symm
    simp [lookupWin, hkv]
  | cons p t ih =>
    obtain ⟨k2, w2⟩ := p
    by_cases hv : k2 = v
    · simp [lookupWin, hv]
    · simp only [List.cons_append, lookupWin, if_neg hv]
      exact ih

/-- Appending a fresh key makes it resolvable. -/
theorem lookupWin_append_single_self (hp : List (Nat × SWindow)) (k : Nat) (w : SWindow)
    (hl : lookupWin hp k = none) : lookupWin (hp ++ [(k, w)]) k = some w := by
  induction hp with
  | nil => simp [lookupWin]
  | cons p t ih =>
    obtain ⟨k2, w2⟩ := p
    by_cases hv : k2 = k
    · simp [lookupWin, hv] at hl
    · simp only [lookupWin, if_neg hv] at hl
      simp only [List.cons_append, lookupWin, if_neg hv]
      exact ih hl

/-- Appending a fresh window with a non-sentinel z value to the heap and
to the back of the middle list preserves well-formedness. -/
theorem wf_extend {yg S : YutaniGlobals} (h : WF yg) (win : SWindow)
    (hheap : S.heap = yg.heap ++ [(yg.next_wid, win)])
    (hmid : S.mid_zs = yg.mid_zs ++ [yg.next_wid])
    (hb : S.bottom_z = yg.bottom_z) (ht : S.top_z = yg.top_z)
    (hnw : S.next_wid = yg.next_wid + 1)
    (hzb : ¬ win.z = YUTANI_ZORDER_BOTTOM) (hzt : ¬ win.z = YUTANI_ZORDER_TOP) :
    WF S := by
  obtain ⟨ha, hnd, hc, hbz, htz, hd1, hd2⟩ := h
  have hfresh : yg.next_wid ∉ heapKeys yg := fun hm => absurd (ha _ hm) (lt_irrefl _)
  have hlknone : lookupWin yg.heap yg.next_wid = none :=
    lookupWin_eq_none_of_not_mem _ _ hfresh
  have hgz_other : ∀ v, ¬ v = yg.next_wid → getZ S v = getZ yg v := by
    intro v hv
    unfold getZ getWinH
    rw [hheap, lookupWin_append_single_other _ _ _ _ hv]
  have hgz_self : getZ S yg.next_wid = some win.z := by
    unfold getZ getWinH
    rw [hheap, lookupWin_append_single_self _ _ _ hlknone]
    rfl
  have hne_of_mem : ∀ v, getZ yg v ≠ none → ¬ v = yg.next_wid := by
    intro v hnz hv
    subst hv
    exact hfresh (mem_heapKeys_of_getZ hnz)
  refine ⟨?_, ?_, ?_, ?_, ?_, ?_, ?_⟩
  · intro k hk
    have hmem : k ∈ heapKeys yg ∨ k = yg.next_wid := by
      unfold heapKeys at hk ⊢
      rw [hheap] at hk
      simpa using hk
    rw [hnw]
    rcases hmem with h1 | h1
    · exact lt_trans (ha k h1) (Nat.lt_succ_self _)
    · omega
  · rw [hmid, List.nodup_append]
    refine ⟨hnd, List.nodup_singleton _, ?_⟩
    intro a ha1 ha2
    simp at ha2
    subst ha2
    exact hne_of_mem _ (hc _ ha1).1 rfl
  · rw [hmid]
    intro v hv
    rcases List.mem_append.mp hv with h1 | h1
    · rw [hgz_other v (hne_of_mem _ (hc _ h1).1)]
      exact hc v h1
    · simp at h1
      subst h1
      rw [hgz_self]
      refine ⟨Option.some_ne_none _, ?_, ?_⟩
      · intro hcon
        exact hzb (Option.some.inj hcon)
      · intro hcon
        exact hzt (Option.some.inj hcon)
  · rw [hb]
    intro v hv
    have h1 := hbz v hv
    rw [hgz_other v (hne_of_mem _ (by rw [h1]; exact Option.some_ne_none _))]
    exact h1
  · rw [ht]
    intro v hv
    have h1 := htz v hv
    rw [hgz_other v (hne_of_mem _ (by rw [h1]; exact Option.some_ne_none _))]
    exact h1
  · rw [hmid, hb, ht]
    intro v hv
    rcases List.mem_append.mp hv with h1 | h1
    · exact hd1 v h1
    · simp at h1
      subst h1
      refine ⟨?_, ?_⟩
      · intro hcon
        have hm : yg.next_wid ∈ yg.bottom_z.toList := by rw [hcon]; simp
        exact hfresh (mem_heapKeys_of_getZ (by rw [hbz _ hm]; exact Option.some_ne_none _))
      · intro hcon
        have hm : yg.next_wid ∈ yg.top_z.toList := by rw [hcon]; simp
        exact hfresh (mem_heapKeys_of_getZ (by rw [htz _ hm]; exact Option.some_ne_none _))
  · rw [hb, ht]
    exact hd2

/-- server_window_create preserves well-formedness: the fresh window
gets z = 1 and lands at the back of the middle list. -/
theorem wf_create {yg : YutaniGlobals} (h : WF yg) (width height : Int) (owner : Nat) :
    WF (server_window_create yg width height owner).1 :=
  wf_extend h _ rfl rfl rfl rfl rfl
    (show ¬ (1 : Nat) = YUTANI_ZORDER_BOTTOM by decide)
    (show ¬ (1 : Nat) = YUTANI_ZORDER_TOP by decide)

/-- Well-formedness phrased over the five state components it depends
on, for transfer across operations that do not touch them. -/
def WFparts (hp : List (Nat × SWindow)) (mid : List Nat) (bz tz : Option Nat) (nw : Nat) : Prop :=
  (∀ k ∈ hp.map (fun p => p.1), k < nw) ∧
  mid.Nodup ∧
  (∀ w ∈ mid, (lookupWin hp w).map (fun x => x.z) ≠ none ∧
    (lookupWin hp w).map (fun x => x.z) ≠ some YUTANI_ZORDER_BOTTOM ∧
    (lookupWin hp w).map (fun x => x.z) ≠ some YUTANI_ZORDER_TOP) ∧
  (∀ w ∈ bz.toList, (lookupWin hp w).map (fun x => x.z) = some YUTANI_ZORDER_BOTTOM) ∧
  (∀ w ∈ tz.toList, (lookupWin hp w).map (fun x => x.z) = some YUTANI_ZORDER_TOP) ∧
  ((∀ w ∈ mid, bz ≠ some w ∧ tz ≠ some w) ∧ (∀ w ∈ bz.toList, tz ≠ some w))

/-- WF only looks at the heap, the three tiers and the wid counter. -/
theorem WF_iff (yg : YutaniGlobals) :
    WF yg ↔ WFparts yg.heap yg.mid_zs yg.bottom_z yg.top_z yg.next_wid :=
  Iff.rfl

/-- markWid leaves the heap unchanged. -/
theorem markWid_heap (yg : YutaniGlobals) (wid : Nat) : (markWid yg wid).heap = yg.heap := by
  unfold markWid
  cases getWinH yg wid <;> rfl

/-- markWid leaves the middle list unchanged. -/
theorem markWid_mid_zs (yg : YutaniGlobals) (wid : Nat) : (markWid yg wid).mid_zs = yg.mid_zs := by
  unfold markWid
  cases getWinH yg wid <;> rfl

/-- markWid leaves the bottom tier unchanged. -/
theorem markWid_bottom_z (yg : YutaniGlobals) (wid : Nat) : (markWid yg wid).bottom_z = yg.bottom_z := by
  unfold markWid
  cases getWinH yg wid <;> rfl

/-- markWid leaves the top tier unchanged. -/
theorem markWid_top_z (yg : YutaniGlobals) (wid : Nat) : (markWid yg wid).top_z = yg.top_z := by
  unfold markWid
  cases getWinH yg wid <;> rfl

/-- markWid leaves the wid counter unchanged. -/
theorem markWid_next_wid (yg : YutaniGlobals) (wid : Nat) : (markWid yg wid).next_wid = yg.next_wid := by
  unfold markWid
  cases getWinH yg wid <;> rfl

/-- markWid leaves the shm table unchanged. -/
theorem markWid_shm (yg : YutaniGlobals) (wid : Nat) : (markWid yg wid).shm = yg.shm := by
  unfold markWid
  cases getWinH yg wid <;> rfl

/-- markWid sends nothing. -/
theorem markWid_sent (yg : YutaniGlobals) (wid : Nat) : (markWid yg wid).sent = yg.sent := by
  unfold markWid
  cases getWinH yg wid <;> rfl

/-- markWid leaves the buffer counter unchanged. -/
theorem markWid_next_bufid (yg : YutaniGlobals) (wid : Nat) : (markWid yg wid).next_bufid = yg.next_bufid := by
  unfold markWid
  cases getWinH yg wid <;> rfl

/-- markWid leaves the wid registry unchanged. -/
theorem markWid_wids (yg : YutaniGlobals) (wid : Nat) : (markWid yg wid).wids_to_windows = yg.wids_to_windows := by
  unfold markWid
  cases getWinH yg wid <;> rfl

/-- markWid leaves the focus pointer unchanged. -/
theorem markWid_focused (yg : YutaniGlobals) (wid : Nat) : (markWid yg wid).focused_window = yg.focused_window := by
  unfold markWid
  cases getWinH yg wid <;> rfl

/-- A z-preserving heap edit does not change the z view of any key. -/
theorem lookupZ_setWinHeap {f : SWindow → SWindow} (hf : ∀ w, (f w).z = w.z)
    (hp : List (Nat × SWindow)) (wid v : Nat) :
    (lookupWin (setWinHeap hp wid f) v).map (fun x => x.z) =
      (lookupWin hp v).map (fun x => x.z) := by
  rw [lookupWin_setWinHeap]
  by_cases h : v = wid
  · subst h
    simp only [if_pos rfl]
    cases lookupWin hp v with
    | none => simp
    | some w => simp [hf]
  · simp [h]

/-- A z-preserving heap edit preserves component well-formedness. -/
theorem wfp_setWinHeap_zpres {f : SWindow → SWindow} {hp : List (Nat × SWindow)}
    {mid : List Nat} {bz tz : Option Nat} {nw : Nat} (wid : Nat)
    (h : WFparts hp mid bz tz nw) (hf : ∀ w, (f w).z = w.z) :
    WFparts (setWinHeap hp wid f) mid bz tz nw := by
  obtain ⟨ha, hnd, hc, hbz, htz, hd⟩ := h
  refine ⟨?_, hnd, ?_, ?_, ?_, hd⟩
  · intro k hk
    apply ha
    rwa [setWinHeap_keys] at hk
  · intro v hv
    simp only [lookupZ_setWinHeap hf]
    exact hc v hv
  · intro v hv
    simp only [lookupZ_setWinHeap hf]
    exact hbz v hv
  · intro v hv
    simp only [lookupZ_setWinHeap hf]
    exact htz v hv

/-- server_window_update_shape preserves well-formedness. -/
theorem wf_update_shape {yg : YutaniGlobals} (h : WF yg) (wid s : Nat) :
    WF (server_window_update_shape yg wid s) := by
  unfold server_window_update_shape
  apply wf_setWin_zpres
  · intro w
    rfl
  · exact h

/-- window_mark_for_close preserves well-formedness. -/
theorem wf_mark_for_close {yg : YutaniGlobals} (h : WF yg) (wid : Nat) :
    WF (window_mark_for_close yg wid) := by
  unfold window_mark_for_close
  apply wf_setWin_zpres
  · intro w
    rfl
  · exact h

/-- window_remove_from_client preserves well-formedness: it only edits
the client map. -/
theorem wf_remove_from_client {yg : YutaniGlobals} (h : WF yg) (w : SWindow) :
    WF (window_remove_from_client yg w) := by
  unfold window_remove_from_client
  cases lookupClient yg.clients_to_windows w.owner with
  | none => exact h
  | some cl =>
    dsimp only
    split_ifs <;> exact h

/-- server_window_resize preserves well-formedness. -/
theorem wf_resize {yg : YutaniGlobals} (h : WF yg) (wid : Nat) (width height : Int) :
    WF (server_window_resize yg wid width height).1 := by
  unfold server_window_resize
  cases getWinH yg wid with
  | none => exact h
  | some w =>
    dsimp only
    split_ifs with h1
    · exact h
    · rw [WF_iff]
      dsimp only [setWin]
      apply wfp_setWinHeap_zpres
      · exact (WF_iff yg).mp h
      · intro ww
        rfl

/-- server_window_resize_finish preserves well-formedness. -/
theorem wf_resize_finish {yg : YutaniGlobals} (h : WF yg) (wid : Nat) (width height : Int) :
    WF (server_window_resize_finish yg wid width height) := by
  unfold server_window_resize_finish
  cases getWinH yg wid with
  | none => exact h
  | some w =>
    dsimp only
    split_ifs with h1
    · exact h
    · rw [WF_iff]
      simp only [markWid_heap, markWid_mid_zs, markWid_bottom_z, markWid_top_z, markWid_next_wid]
      dsimp only [mark_window, pushDamage, setWin]
      apply wfp_setWinHeap_zpres
      · apply wfp_setWinHeap_zpres
        · exact (WF_iff yg).mp h
        · intro ww
          rfl
      · intro ww
        rfl

/-- window_actually_close preserves well-formedness: the stacking edit
is exactly unorder_window, everything else is registry and damage
bookkeeping. -/
theorem wf_actually_close {yg : YutaniGlobals} (h : WF yg) (wid : Nat) :
    WF (window_actually_close yg wid) := by
  unfold window_actually_close
  cases getWinH yg wid with
  | none => exact h
  | some w =>
    dsimp only
    rw [WF_iff]
    dsimp only [notify_subscribers]
    split_ifs with h1
    · simp only [markWid_heap, markWid_mid_zs, markWid_bottom_z, markWid_top_z, markWid_next_wid]
      rw [← WF_iff]
      apply wf_unorder _ wid
      exact h
    · simp only [markWid_heap, markWid_mid_zs, markWid_bottom_z, markWid_top_z, markWid_next_wid]
      rw [← WF_iff]
      apply wf_unorder _ wid
      exact h

/-- window_tile preserves well-formedness: a move is a z-preserving
window edit plus damage and one message. -/
theorem wf_tile {yg : YutaniGlobals} (h : WF yg) (wid : Nat) (width_div height_div x y : Int) :
    WF (window_tile yg wid width_div height_div x y) := by
  unfold window_tile
  dsimp only
  repeat' split
  all_goals
    rw [WF_iff]
    dsimp only [sendTo, setWin]
    simp only [markWid_heap, markWid_mid_zs, markWid_bottom_z, markWid_top_z, markWid_next_wid]
    apply wfp_setWinHeap_zpres
    · exact (WF_iff yg).mp h
    · intro ww
      rfl

/-- Key delivery to the focused window preserves well-formedness. -/
theorem wf_key_deliver_focused {yg : YutaniGlobals} (h : WF yg) (focused : Option Nat)
    (ke : KeyEvent) (st : KeyEventState) : WF (key_deliver_focused yg focused ke st) := by
  unfold key_deliver_focused
  repeat' split
  all_goals exact h

/-- Key bind delivery preserves well-formedness. -/
theorem wf_key_deliver {yg : YutaniGlobals} (h : WF yg) (focused : Option Nat)
    (ke : KeyEvent) (st : KeyEventState) : WF (key_deliver yg focused ke st) := by
  unfold key_deliver
  dsimp only
  repeat' split
  all_goals first
    | exact h
    | (apply wf_key_deliver_focused; exact h)

/-- Well-formedness of a branch on a decidable condition follows from
well-formedness of both arms. -/
theorem wf_ite {c : Prop} [Decidable c] {A B : YutaniGlobals} (hA : WF A) (hB : WF B) :
    WF (if c then A else B) := by
  split_ifs with h
  · exact hA
  · exact hB

/-- handle_key_event preserves well-formedness: every chord branch is a
z-preserving edit, a tile, a debug toggle or plain delivery. -/
theorem wf_handle_key_event {yg0 : YutaniGlobals} (h : WF yg0) (ke : KeyEvent)
    (st : KeyEventState) : WF (handle_key_event yg0 ke st) := by
  unfold handle_key_event
  dsimp only
  set Y := { yg0 with kbd_state := st } with hY
  have hk : WF Y := h
  repeat' split
  all_goals repeat' apply wf_ite
  all_goals first
    | exact hk
    | (apply wf_key_deliver; exact hk)
    | (apply wf_tile; exact hk)
    | (rw [WF_iff]
       dsimp only [setWin]
       simp only [markWid_heap, markWid_mid_zs, markWid_bottom_z, markWid_top_z, markWid_next_wid]
       apply wfp_setWinHeap_zpres
       · exact (WF_iff Y).mp hk
       · intro ww
         rfl)

/-- sendTo preserves well-formedness. -/
theorem wf_sendTo {yg : YutaniGlobals} (h : WF yg) (dest : Nat) (m : MsgOut) :
    WF (sendTo yg dest m) := h

/-- notify_subscribers preserves well-formedness. -/
theorem wf_notify {yg : YutaniGlobals} (h : WF yg) : WF (notify_subscribers yg) := h

/-- The coordinate update and clamps only touch the mouse position. -/
theorem wf_mouse_coord_update {yg : YutaniGlobals} (h : WF yg) (mtype : Nat) (me : MousePacket) :
    WF (mouse_coord_update yg mtype me) := by
  unfold mouse_coord_update
  dsimp only
  repeat' apply wf_ite
  all_goals exact h

/-- The NORMAL mouse state preserves well-formedness. -/
theorem wf_mouse_normal {yg : YutaniGlobals} (h : WF yg) (me : MousePacket) :
    WF (mouse_normal yg me) := by
  unfold mouse_normal
  dsimp only
  apply wf_ite
  · exact wf_mouse_start_drag h
  · apply wf_ite
    · exact wf_mouse_start_resize h
    · apply wf_ite
      · repeat' split
        all_goals
          rw [WF_iff]
          dsimp only [sendTo]
          rw [← WF_iff]
          apply wf_set_focused_at
          exact h
      · repeat' first
          | apply wf_ite
          | split
        all_goals
          rw [WF_iff]
          try dsimp only [sendTo]
          exact (WF_iff yg).mp h

/-- The MOVING mouse state preserves well-formedness. -/
theorem wf_mouse_moving {yg : YutaniGlobals} (h : WF yg) (me : MousePacket) :
    WF (mouse_moving yg me) := by
  unfold mouse_moving
  dsimp only
  apply wf_ite
  · exact h
  · repeat' split
    · exact h
    · rw [WF_iff]
      dsimp only [setWin]
      simp only [markWid_heap, markWid_mid_zs, markWid_bottom_z, markWid_top_z, markWid_next_wid]
      apply wfp_setWinHeap_zpres
      · exact (WF_iff yg).mp h
      · intro ww
        rfl

/-- The DRAGGING mouse state preserves well-formedness. -/
theorem wf_mouse_dragging {yg : YutaniGlobals} (h : WF yg) (me : MousePacket) :
    WF (mouse_dragging yg me) := by
  unfold mouse_dragging
  dsimp only
  repeat' first
    | apply wf_ite
    | split
  all_goals
    rw [WF_iff]
    try dsimp only [sendTo]
    exact (WF_iff yg).mp h

/-- The RESIZING mouse state preserves well-formedness. -/
theorem wf_mouse_resizing {yg : YutaniGlobals} (h : WF yg) (me : MousePacket) :
    WF (mouse_resizing yg me) := by
  unfold mouse_resizing
  dsimp only
  repeat' first
    | apply wf_ite
    | split
  all_goals
    rw [WF_iff]
    try dsimp only [sendTo, mark_window_relative, pushDamage]
    exact (WF_iff yg).mp h

/-- The mouse state machine preserves well-formedness. -/
theorem wf_mouse_fsm {yg : YutaniGlobals} (h : WF yg) (me : MousePacket) :
    WF (mouse_fsm yg me) := by
  unfold mouse_fsm
  apply wf_ite
  · exact wf_mouse_normal h me
  · apply wf_ite
    · exact wf_mouse_moving h me
    · apply wf_ite
      · exact wf_mouse_dragging h me
      · apply wf_ite
        · exact wf_mouse_resizing h me
        · exact h

/-- handle_mouse_event preserves well-formedness. -/
theorem wf_handle_mouse_event {yg : YutaniGlobals} (h : WF yg) (mtype : Nat) (me : MousePacket) :
    WF (handle_mouse_event yg mtype me) :=
  wf_mouse_fsm (wf_mouse_coord_update h mtype me) me

/-- A hashmap hit means the window struct is on the heap. -/
theorem getWinH_ne_none_of_hashGet {yg : YutaniGlobals} {wid : Nat} {w : SWindow}
    (h : hashGet yg wid = some w) : getWinH yg wid ≠ none := by
  unfold hashGet at h
  split_ifs at h with h1
  unfold getWinH
  rw [h]
  exact Option.some_ne_none w

/-- yutani_query_result preserves well-formedness. -/
theorem wf_yqr {yg : YutaniGlobals} (h : WF yg) (dest : Nat) (w : Option Nat) :
    WF (yutani_query_result yg dest w) := by
  unfold yutani_query_result
  repeat' split
  all_goals exact h

/-- Folding query results over a wid list preserves well-formedness. -/
theorem wf_foldl_yqr (l : List Nat) {A : YutaniGlobals} (src : Nat) (h : WF A) :
    WF (l.foldl (fun acc wid => yutani_query_result acc src (some wid)) A) := by
  induction l generalizing A with
  | nil => exact h
  | cons x t ih =>
    exact ih (wf_yqr h src (some x))

/-- Folding close marks over a wid list preserves well-formedness. -/
theorem wf_foldl_mark_for_close (l : List Nat) {A : YutaniGlobals} (h : WF A) :
    WF (l.foldl (fun acc wid => window_mark_for_close acc wid) A) := by
  induction l generalizing A with
  | nil => exact h
  | cons x t ih =>
    exact ih (wf_mark_for_close h x)

/-- handle_msg preserves well-formedness for every message. -/
theorem wf_handle_msg {yg : YutaniGlobals} (h : WF yg) (src : Nat) (m : YMsg) :
    WF (handle_msg yg src m) := by
  cases m with
  | hello => exact h
  | window_new w ht =>
    unfold handle_msg
    dsimp only
    split
    all_goals
      rw [WF_iff]
      dsimp only [sendTo, notify_subscribers]
      rw [← WF_iff]
      apply wf_create
      exact h
  | flip wid =>
    unfold handle_msg
    dsimp only
    split <;> exact h
  | flip_region wid x y w ht =>
    unfold handle_msg
    dsimp only
    split <;> exact h
  | key_event ev st => exact wf_handle_key_event h ev st
  | mouse_event mtype packet => exact wf_handle_mouse_event h mtype packet
  | window_move wid x y =>
    unfold handle_msg
    dsimp only
    split
    · rw [WF_iff]
      dsimp only [setWin, mark_window, pushDamage]
      simp only [markWid_heap, markWid_mid_zs, markWid_bottom_z, markWid_top_z, markWid_next_wid]
      apply wfp_setWinHeap_zpres
      · exact (WF_iff yg).mp h
      · intro ww
        rfl
    · exact h
  | window_close wid =>
    unfold handle_msg
    dsimp only
    split
    · apply wf_remove_from_client
      apply wf_mark_for_close
      exact h
    · exact h
  | window_stack wid z =>
    unfold handle_msg
    dsimp only
    cases hw : hashGet yg wid with
    | none => exact h
    | some w =>
      apply wf_reorder h wid _ (getWinH_ne_none_of_hashGet hw)
  | resize_request wid w ht =>
    unfold handle_msg
    dsimp only
    split <;> exact h
  | resize_offer wid w ht =>
    unfold handle_msg
    dsimp only
    split <;> exact h
  | resize_accept wid w ht =>
    unfold handle_msg
    dsimp only
    split
    · rw [WF_iff]
      dsimp only [sendTo]
      rw [← WF_iff]
      apply wf_resize
      exact h
    · exact h
  | resize_done wid w ht =>
    unfold handle_msg
    dsimp only
    split
    · apply wf_resize_finish
      exact h
    · exact h
  | query_windows =>
    unfold handle_msg
    dsimp only
    rw [WF_iff]
    dsimp only [sendTo]
    rw [← WF_iff]
    apply wf_yqr _ src
    apply wf_foldl_yqr _ src
    apply wf_yqr _ src
    exact h
  | subscribe => exact h
  | unsubscribe => exact h
  | window_advertise wid flags offsets size strings =>
    unfold handle_msg
    dsimp only
    split
    · rw [WF_iff]
      dsimp only [setWin, notify_subscribers]
      apply wfp_setWinHeap_zpres
      · exact (WF_iff yg).mp h
      · intro ww
        rfl
    · exact h
  | session_end => exact h
  | window_focus wid =>
    unfold handle_msg
    dsimp only
    split
    · apply wf_set_focused_window
      exact h
    · exact h
  | key_bind key modifiers response => exact h
  | window_drag_start wid =>
    unfold handle_msg
    dsimp only
    split
    · apply wf_mouse_start_drag
      exact h
    · exact h
  | window_update_shape wid set_shape =>
    unfold handle_msg
    dsimp only
    split
    · apply wf_update_shape
      exact h
    · exact h
  | unknown t => exact h

/-- handle_packet preserves well-formedness. -/
theorem wf_handle_packet {yg : YutaniGlobals} (h : WF yg) (p : Packet) :
    WF (handle_packet yg p) := by
  cases p with
  | dead src =>
    unfold handle_packet
    dsimp only
    split
    · rw [WF_iff]
      rw [← WF_iff]
      apply wf_foldl_mark_for_close
      exact h
    · exact h
  | msg src magic m =>
    unfold handle_packet
    dsimp only
    apply wf_ite
    · exact h
    · exact wf_handle_msg h src m

/-- unorder_window leaves the shm table unchanged. -/
theorem unorder_window_shm (yg : YutaniGlobals) (wid : Nat) :
    (unorder_window yg wid).shm = yg.shm := by
  unfold unorder_window
  cases getWinH yg wid
  · rfl
  · dsimp only
    split_ifs <;> rfl

/-- unorder_window leaves the wid registry unchanged. -/
theorem unorder_window_wids (yg : YutaniGlobals) (wid : Nat) :
    (unorder_window yg wid).wids_to_windows = yg.wids_to_windows := by
  unfold unorder_window
  cases getWinH yg wid
  · rfl
  · dsimp only
    split_ifs <;> rfl

/-- C1: after any handled message every window sits in at most one of
the three stacking tiers.  The original claim (exactly one tier for
every registered wid) fails: displacing the TOP or BOTTOM occupant by a
WINDOW_STACK request leaves the displaced window, still registered, in
no tier at all.  This theorem proves the amended at-most-one half. -/
theorem c1_at_most_one_tier {yg : YutaniGlobals} (h : WF yg) (p : Packet) :
    atMostOneTier (handle_packet yg p) :=
  (wf_handle_packet h p).2.2.2.2.2

/-- Witness for C1: the amended theorem applied to the freshly
initialized compositor receiving a HELLO message. -/
theorem c1_at_most_one_tier_witness :
    WF (initState 1024 768) ∧
    atMostOneTier (handle_packet (initState 1024 768)
      (Packet.msg 9 YUTANI_MSG__MAGIC YMsg.hello)) :=
  ⟨by decide, c1_at_most_one_tier (by decide) _⟩

/-- Counterexample for C1 as frozen: create two windows, stack window 1
to TOP, then stack window 2 to TOP.  Window 1 is still registered in
the wid map but afterwards belongs to no tier: not the middle list, not
BOTTOM, not TOP, refuting membership in exactly one tier. -/
theorem c1_counterexample :
    1 ∈ (handle_packet (handle_packet (handle_packet (handle_packet (initState 640 480)
          (Packet.msg 9 YUTANI_MSG__MAGIC (YMsg.window_new 10 10)))
          (Packet.msg 9 YUTANI_MSG__MAGIC (YMsg.window_new 10 10)))
          (Packet.msg 9 YUTANI_MSG__MAGIC (YMsg.window_stack 1 YUTANI_ZORDER_TOP)))
          (Packet.msg 9 YUTANI_MSG__MAGIC (YMsg.window_stack 2 YUTANI_ZORDER_TOP))).wids_to_windows ∧
    1 ∉ (handle_packet (handle_packet (handle_packet (handle_packet (initState 640 480)
          (Packet.msg 9 YUTANI_MSG__MAGIC (YMsg.window_new 10 10)))
          (Packet.msg 9 YUTANI_MSG__MAGIC (YMsg.window_new 10 10)))
          (Packet.msg 9 YUTANI_MSG__MAGIC (YMsg.window_stack 1 YUTANI_ZORDER_TOP)))
          (Packet.msg 9 YUTANI_MSG__MAGIC (YMsg.window_stack 2 YUTANI_ZORDER_TOP))).mid_zs ∧
    (handle_packet (handle_packet (handle_packet (handle_packet (initState 640 480)
          (Packet.msg 9 YUTANI_MSG__MAGIC (YMsg.window_new 10 10)))
          (Packet.msg 9 YUTANI_MSG__MAGIC (YMsg.window_new 10 10)))
          (Packet.msg 9 YUTANI_MSG__MAGIC (YMsg.window_stack 1 YUTANI_ZORDER_TOP)))
          (Packet.msg 9 YUTANI_MSG__MAGIC (YMsg.window_stack 2 YUTANI_ZORDER_TOP))).bottom_z ≠ some 1 ∧
    (handle_packet (handle_packet (handle_packet (handle_packet (initState 640 480)
          (Packet.msg 9 YUTANI_MSG__MAGIC (YMsg.window_new 10 10)))
          (Packet.msg 9 YUTANI_MSG__MAGIC (YMsg.window_new 10 10)))
          (Packet.msg 9 YUTANI_MSG__MAGIC (YMsg.window_stack 1 YUTANI_ZORDER_TOP)))
          (Packet.msg 9 YUTANI_MSG__MAGIC (YMsg.window_stack 2 YUTANI_ZORDER_TOP))).top_z ≠ some 1 := by
  decide

/-- C2: reorder removes the window from its current tier, assigns the
new z, and inserts it into the target tier; but a displaced TOP or
BOTTOM occupant is not demoted into the middle sequence: it is left in
no tier at all.  This theorem proves the amended form in which the
previous occupant is orphaned. -/
theorem c2_reorder_retiers_and_orphans {yg : YutaniGlobals} (h : WF yg) (wid : Nat)
    (new_zed : Nat) (hsome : getWinH yg wid ≠ none) :
    getZ (reorder_window yg wid new_zed) wid = some new_zed ∧
    ((new_zed ≠ YUTANI_ZORDER_TOP ∧ new_zed ≠ YUTANI_ZORDER_BOTTOM) →
      wid ∈ (reorder_window yg wid new_zed).mid_zs ∧
      (reorder_window yg wid new_zed).bottom_z ≠ some wid ∧
      (reorder_window yg wid new_zed).top_z ≠ some wid) ∧
    (new_zed = YUTANI_ZORDER_TOP →
      (reorder_window yg wid new_zed).top_z = some wid ∧
      wid ∉ (reorder_window yg wid new_zed).mid_zs ∧
      (∀ v, yg.top_z = some v → v ≠ wid → notInTiers (reorder_window yg wid new_zed) v)) ∧
    (new_zed = YUTANI_ZORDER_BOTTOM →
      (reorder_window yg wid new_zed).bottom_z = some wid ∧
      wid ∉ (reorder_window yg wid new_zed).mid_zs ∧
      (∀ v, yg.bottom_z = some v → v ≠ wid → notInTiers (reorder_window yg wid new_zed) v)) := by
  obtain ⟨_, h2, h3, h4, h5⟩ := reorder_spec h wid new_zed hsome
  exact ⟨h2, h3,
    fun hc => ⟨(h4 hc).1, (h4 hc).2.1, (h4 hc).2.2.2⟩,
    fun hc => ⟨(h5 hc).1, (h5 hc).2.1, (h5 hc).2.2.2⟩⟩

/-- Witness for C2: raising the middle window of twoWinState to TOP. -/
theorem c2_reorder_retiers_and_orphans_witness :
    WF twoWinState ∧ getWinH twoWinState 2 ≠ none ∧
    (getZ (reorder_window twoWinState 2 YUTANI_ZORDER_TOP) 2 = some YUTANI_ZORDER_TOP ∧
    ((YUTANI_ZORDER_TOP ≠ YUTANI_ZORDER_TOP ∧ YUTANI_ZORDER_TOP ≠ YUTANI_ZORDER_BOTTOM) →
      2 ∈ (reorder_window twoWinState 2 YUTANI_ZORDER_TOP).mid_zs ∧
      (reorder_window twoWinState 2 YUTANI_ZORDER_TOP).bottom_z ≠ some 2 ∧
      (reorder_window twoWinState 2 YUTANI_ZORDER_TOP).top_z ≠ some 2) ∧
    (YUTANI_ZORDER_TOP = YUTANI_ZORDER_TOP →
      (reorder_window twoWinState 2 YUTANI_ZORDER_TOP).top_z = some 2 ∧
      2 ∉ (reorder_window twoWinState 2 YUTANI_ZORDER_TOP).mid_zs ∧
      (∀ v, twoWinState.top_z = some v → v ≠ 2 →
        notInTiers (reorder_window twoWinState 2 YUTANI_ZORDER_TOP) v)) ∧
    (YUTANI_ZORDER_TOP = YUTANI_ZORDER_BOTTOM →
      (reorder_window twoWinState 2 YUTANI_ZORDER_TOP).bottom_z = some 2 ∧
      2 ∉ (reorder_window twoWinState 2 YUTANI_ZORDER_TOP).mid_zs ∧
      (∀ v, twoWinState.bottom_z = some v → v ≠ 2 →
        notInTiers (reorder_window twoWinState 2 YUTANI_ZORDER_TOP) v))) :=
  ⟨by decide,
   by
     intro hc
     rw [show getWinH twoWinState 2 = some (mkWin 2 8 0 0 300 300 1 255) from rfl] at hc
     exact Option.noConfusion hc,
   c2_reorder_retiers_and_orphans (by decide) 2 YUTANI_ZORDER_TOP
     (by
       intro hc
       rw [show getWinH twoWinState 2 = some (mkWin 2 8 0 0 300 300 1 255) from rfl] at hc
       exact Option.noConfusion hc)⟩

/-- Counterexample for C2 as frozen: raising window 2 of twoWinState to
TOP displaces window 1, the old TOP occupant, and window 1 is not moved
into the middle sequence (nor any other tier), so the displaced
occupant is not demoted to middle as claimed. -/
theorem c2_counterexample :
    (reorder_window twoWinState 2 YUTANI_ZORDER_TOP).top_z = some 2 ∧
    1 ∉ (reorder_window twoWinState 2 YUTANI_ZORDER_TOP).mid_zs ∧
    (reorder_window twoWinState 2 YUTANI_ZORDER_TOP).bottom_z = none := by
  decide

/-- C3: the first half of the claim holds (one subscribe followed by a
notification delivers exactly one NOTIFY), but the second half does
not: the membership scan in the SUBSCRIBE handler only breaks out of
its own loop and the insert runs unconditionally, so a duplicate
subscribe adds a second entry, and after one unsubscribe and a
notification the client still receives one NOTIFY instead of zero. -/
theorem c3_subscribe_counts :
    notifyCountTo (notify_subscribers
      (handle_msg (initState 1024 768) 5 YMsg.subscribe)).sent 5 = 1 ∧
    notifyCountTo (notify_subscribers
      (handle_msg (handle_msg (handle_msg (initState 1024 768) 5 YMsg.subscribe)
        5 YMsg.subscribe) 5 YMsg.unsubscribe)).sent 5 = 1 := by
  decide

/-- C5: refuted as frozen and amended.  The close path releases exactly
the shm region of the active buffer; a pending new buffer from an
unfinished resize handshake is not released, so closing during the
handshake leaks the new region. -/
theorem c5_close_releases_only_active {yg : YutaniGlobals} {wid : Nat} {w : SWindow}
    (hw : getWinH yg wid = some w) :
    (window_actually_close yg wid).shm = yg.shm.erase w.bufid ∧
    (w.newbufid ∈ yg.shm → w.newbufid ≠ w.bufid →
      w.newbufid ∈ (window_actually_close yg wid).shm) := by
  have hshm : (window_actually_close yg wid).shm = yg.shm.erase w.bufid := by
    unfold window_actually_close
    rw [hw]
    dsimp only
    split_ifs <;> simp only [notify_subscribers, markWid_shm, unorder_window_shm]
  refine ⟨hshm, ?_⟩
  intro h1 h2
  rw [hshm]
  exact (List.mem_erase_of_ne h2).mpr h1

/-- Witness for C5: closing the window of pendingResizeState, whose
active buffer is 2 and pending new buffer is 3. -/
theorem c5_close_releases_only_active_witness :
    getWinH pendingResizeState 1 = some { mkWin 1 7 0 0 400 300 1 0 with
      bufid := 2, buffer := 2, newbufid := 3, newbuffer := 3 } ∧
    ((window_actually_close pendingResizeState 1).shm =
      pendingResizeState.shm.erase ({ mkWin 1 7 0 0 400 300 1 0 with
        bufid := 2, buffer := 2, newbufid := 3, newbuffer := 3 } : SWindow).bufid ∧
    (({ mkWin 1 7 0 0 400 300 1 0 with
        bufid := 2, buffer := 2, newbufid := 3, newbuffer := 3 } : SWindow).newbufid ∈
          pendingResizeState.shm →
      ({ mkWin 1 7 0 0 400 300 1 0 with
        bufid := 2, buffer := 2, newbufid := 3, newbuffer := 3 } : SWindow).newbufid ≠
        ({ mkWin 1 7 0 0 400 300 1 0 with
          bufid := 2, buffer := 2, newbufid := 3, newbuffer := 3 } : SWindow).bufid →
      ({ mkWin 1 7 0 0 400 300 1 0 with
        bufid := 2, buffer := 2, newbufid := 3, newbuffer := 3 } : SWindow).newbufid ∈
        (window_actually_close pendingResizeState 1).shm)) :=
  ⟨rfl, c5_close_releases_only_active rfl⟩

/-- Counterexample for C5 as frozen: after closing the window of
pendingResizeState mid-handshake, the shm table still holds region 3,
the still-unmapped new buffer the spec says is released; only the
active region 2 is gone. -/
theorem c5_counterexample :
    (window_actually_close pendingResizeState 1).shm = [3] ∧
    (3 : Nat) ∈ (window_actually_close pendingResizeState 1).shm := by
  decide

/-- C7: amended form.  On tileState (display 1024x768, TOP window of
height 24, focused middle window 2 owned by client 8), the Super plus
left-arrow chord calls window_tile with a 2x1 grid, so window 2 moves
to origin (0, 24) and its owner is offered size (512, 744): the full
panel-free height, not the half height (512, 372) of the claim. -/
theorem c7_super_left_tiles_full_height :
    ((getWinH (handle_packet tileState
        (Packet.msg 9 YUTANI_MSG__MAGIC (YMsg.key_event superLeft ⟨false⟩))) 2).map
      (fun w => (w.x, w.y))) = some ((0 : Int), (24 : Int)) ∧
    (⟨some 8, MsgOut.resize YUTANI_MSG_RESIZE_OFFER 2 512 744 0⟩ : Sent) ∈
      (handle_packet tileState
        (Packet.msg 9 YUTANI_MSG__MAGIC (YMsg.key_event superLeft ⟨false⟩))).sent := by
  decide

/-- Counterexample for C7 as frozen: the RESIZE_OFFER the claim
predicts, size (512, 372), is never sent; the offer actually sent to
the owner is (512, 744), because the Super plus left-arrow chord tiles
on a 2x1 grid (full height), not 2x2. -/
theorem c7_counterexample :
    (⟨some 8, MsgOut.resize YUTANI_MSG_RESIZE_OFFER 2 512 372 0⟩ : Sent) ∉
      (handle_packet tileState
        (Packet.msg 9 YUTANI_MSG__MAGIC (YMsg.key_event superLeft ⟨false⟩))).sent ∧
    (⟨some 8, MsgOut.resize YUTANI_MSG_RESIZE_OFFER 2 512 744 0⟩ : Sent) ∈
      (handle_packet tileState
        (Packet.msg 9 YUTANI_MSG__MAGIC (YMsg.key_event superLeft ⟨false⟩))).sent := by
  decide

/-- Pointer coordinates are untouched by a branch when both arms leave
them untouched. -/
theorem mouse_eq_ite {c : Prop} [Decidable c] {A B : YutaniGlobals} {mx my : Int}
    (hA : A.mouse_x = mx ∧ A.mouse_y = my) (hB : B.mouse_x = mx ∧ B.mouse_y = my) :
    (if c then A else B).mouse_x = mx ∧ (if c then A else B).mouse_y = my := by
  split_ifs
  · exact hA
  · exact hB

/-- make_top does not move the pointer. -/
theorem make_top_mouse (yg : YutaniGlobals) (wid : Nat) :
    (make_top yg wid).mouse_x = yg.mouse_x ∧ (make_top yg wid).mouse_y = yg.mouse_y := by
  unfold make_top
  cases getWinH yg wid
  · exact ⟨rfl, rfl⟩
  · dsimp only
    split_ifs <;> exact ⟨rfl, rfl⟩

/-- set_focused_window does not move the pointer. -/
theorem set_focused_window_mouse (yg : YutaniGlobals) (w : Option Nat) :
    (set_focused_window yg w).mouse_x = yg.mouse_x ∧
    (set_focused_window yg w).mouse_y = yg.mouse_y := by
  unfold set_focused_window
  split_ifs
  · exact ⟨rfl, rfl⟩
  · rcases hf : yg.focused_window with _ | f
    · dsimp only
      repeat' split
      all_goals simp only [notify_subscribers, sendTo, make_top_mouse, and_self]
    · rcases hg : getWinH yg f with _ | fw
      · dsimp only
        repeat' split
        all_goals simp only [notify_subscribers, sendTo, make_top_mouse, and_self]
      · dsimp only
        repeat' split
        all_goals simp only [notify_subscribers, sendTo, make_top_mouse, and_self]

/-- set_focused_at does not move the pointer. -/
theorem set_focused_at_mouse (yg : YutaniGlobals) (x y : Int) :
    (set_focused_at yg x y).mouse_x = yg.mouse_x ∧
    (set_focused_at yg x y).mouse_y = yg.mouse_y :=
  set_focused_window_mouse yg _

/-- mouse_start_drag does not move the pointer. -/
theorem mouse_start_drag_mouse (yg : YutaniGlobals) :
    (mouse_start_drag yg).mouse_x = yg.mouse_x ∧
    (mouse_start_drag yg).mouse_y = yg.mouse_y := by
  unfold mouse_start_drag
  dsimp only
  repeat' split
  all_goals simp only [sendTo, make_top_mouse, set_focused_at_mouse, and_self]

/-- mouse_start_resize does not move the pointer. -/
theorem mouse_start_resize_mouse (yg : YutaniGlobals) :
    (mouse_start_resize yg).mouse_x = yg.mouse_x ∧
    (mouse_start_resize yg).mouse_y = yg.mouse_y := by
  unfold mouse_start_resize
  dsimp only
  repeat' split
  all_goals simp only [sendTo, make_top_mouse, set_focused_at_mouse, and_self]

/-- markWid does not move the pointer. -/
theorem markWid_mouse_x (yg : YutaniGlobals) (wid : Nat) :
    (markWid yg wid).mouse_x = yg.mouse_x := by
  unfold markWid
  cases getWinH yg wid <;> rfl

/-- markWid does not move the pointer vertically. -/
theorem markWid_mouse_y (yg : YutaniGlobals) (wid : Nat) :
    (markWid yg wid).mouse_y = yg.mouse_y := by
  unfold markWid
  cases getWinH yg wid <;> rfl

/-- The NORMAL state machine case does not move the pointer. -/
theorem mouse_normal_mouse (yg : YutaniGlobals) (me : MousePacket) :
    (mouse_normal yg me).mouse_x = yg.mouse_x ∧ (mouse_normal yg me).mouse_y = yg.mouse_y := by
  unfold mouse_normal
  dsimp only
  apply mouse_eq_ite
  · exact mouse_start_drag_mouse yg
  · apply mouse_eq_ite
    · exact mouse_start_resize_mouse yg
    · apply mouse_eq_ite
      · repeat' split
        all_goals simp only [sendTo, set_focused_at_mouse, and_self]
      · repeat' first
          | apply mouse_eq_ite
          | split
        all_goals simp only [sendTo, and_self]

/-- The MOVING state machine case does not move the pointer. -/
theorem mouse_moving_mouse (yg : YutaniGlobals) (me : MousePacket) :
    (mouse_moving yg me).mouse_x = yg.mouse_x ∧ (mouse_moving yg me).mouse_y = yg.mouse_y := by
  unfold mouse_moving
  dsimp only
  apply mouse_eq_ite
  · exact ⟨rfl, rfl⟩
  · repeat' split
    all_goals simp only [setWin, markWid_mouse_x, markWid_mouse_y, and_self]

/-- The DRAGGING state machine case does not move the pointer. -/
theorem mouse_dragging_mouse (yg : YutaniGlobals) (me : MousePacket) :
    (mouse_dragging yg me).mouse_x = yg.mouse_x ∧ (mouse_dragging yg me).mouse_y = yg.mouse_y := by
  unfold mouse_dragging
  dsimp only
  repeat' first
    | apply mouse_eq_ite
    | split
  all_goals simp only [sendTo, and_self]

/-- The RESIZING state machine case does not move the pointer. -/
theorem mouse_resizing_mouse (yg : YutaniGlobals) (me : MousePacket) :
    (mouse_resizing yg me).mouse_x = yg.mouse_x ∧ (mouse_resizing yg me).mouse_y = yg.mouse_y := by
  unfold mouse_resizing
  dsimp only
  repeat' first
    | apply mouse_eq_ite
    | split
  all_goals simp only [sendTo, mark_window_relative, pushDamage, and_self]

/-- The state machine never moves the pointer. -/
theorem mouse_fsm_mouse (yg : YutaniGlobals) (me : MousePacket) :
    (mouse_fsm yg me).mouse_x = yg.mouse_x ∧ (mouse_fsm yg me).mouse_y = yg.mouse_y := by
  unfold mouse_fsm
  apply mouse_eq_ite
  · exact mouse_normal_mouse yg me
  · apply mouse_eq_ite
    · exact mouse_moving_mouse yg me
    · apply mouse_eq_ite
      · exact mouse_dragging_mouse yg me
      · apply mouse_eq_ite
        · exact mouse_resizing_mouse yg me
        · exact ⟨rfl, rfl⟩

/-- C8: amended form.  A relative mouse event adds three times the x
difference but subtracts three times the y difference (the spec claims
both are added); an absolute event installs three times the reported
values; afterwards both coordinates are clamped to the scaled display
rectangle. -/
theorem c8_mouse_coordinate_update (yg : YutaniGlobals) (me : MousePacket)
    (hw : 0 ≤ yg.width) (hh : 0 ≤ yg.height) :
    (handle_mouse_event yg YUTANI_MOUSE_EVENT_TYPE_RELATIVE me).mouse_x =
      min (yg.width * MOUSE_SCALE) (max 0 (yg.mouse_x + me.x_difference * MOUSE_SCALE)) ∧
    (handle_mouse_event yg YUTANI_MOUSE_EVENT_TYPE_RELATIVE me).mouse_y =
      min (yg.height * MOUSE_SCALE) (max 0 (yg.mouse_y - me.y_difference * MOUSE_SCALE)) ∧
    (handle_mouse_event yg YUTANI_MOUSE_EVENT_TYPE_ABSOLUTE me).mouse_x =
      min (yg.width * MOUSE_SCALE) (max 0 (me.x_difference * MOUSE_SCALE)) ∧
    (handle_mouse_event yg YUTANI_MOUSE_EVENT_TYPE_ABSOLUTE me).mouse_y =
      min (yg.height * MOUSE_SCALE) (max 0 (me.y_difference * MOUSE_SCALE)) ∧
    (∀ mtype, 0 ≤ (handle_mouse_event yg mtype me).mouse_x ∧
      (handle_mouse_event yg mtype me).mouse_x ≤ yg.width * MOUSE_SCALE ∧
      0 ≤ (handle_mouse_event yg mtype me).mouse_y ∧
      (handle_mouse_event yg mtype me).mouse_y ≤ yg.height * MOUSE_SCALE) := by
  refine ⟨?_, ?_, ?_, ?_, ?_⟩
  · unfold handle_mouse_event
    rw [(mouse_fsm_mouse _ _).1]
    unfold mouse_coord_update
    dsimp only
    simp only [MOUSE_SCALE, YUTANI_MOUSE_EVENT_TYPE_RELATIVE, YUTANI_MOUSE_EVENT_TYPE_ABSOLUTE]
    split_ifs <;> (try dsimp only at *) <;> omega
  · unfold handle_mouse_event
    rw [(mouse_fsm_mouse _ _).2]
    unfold mouse_coord_update
    dsimp only
    simp only [MOUSE_SCALE, YUTANI_MOUSE_EVENT_TYPE_RELATIVE, YUTANI_MOUSE_EVENT_TYPE_ABSOLUTE]
    split_ifs <;> (try dsimp only at *) <;> omega
  · unfold handle_mouse_event
    rw [(mouse_fsm_mouse _ _).1]
    unfold mouse_coord_update
    dsimp only
    simp only [MOUSE_SCALE, YUTANI_MOUSE_EVENT_TYPE_RELATIVE, YUTANI_MOUSE_EVENT_TYPE_ABSOLUTE]
    split_ifs <;> (try dsimp only at *) <;> omega
  · unfold handle_mouse_event
    rw [(mouse_fsm_mouse _ _).2]
    unfold mouse_coord_update
    dsimp only
    simp only [MOUSE_SCALE, YUTANI_MOUSE_EVENT_TYPE_RELATIVE, YUTANI_MOUSE_EVENT_TYPE_ABSOLUTE]
    split_ifs <;> (try dsimp only at *) <;> omega
  · intro mtype
    unfold handle_mouse_event
    rw [(mouse_fsm_mouse _ _).1, (mouse_fsm_mouse _ _).2]
    unfold mouse_coord_update
    dsimp only
    simp only [MOUSE_SCALE, YUTANI_MOUSE_EVENT_TYPE_RELATIVE, YUTANI_MOUSE_EVENT_TYPE_ABSOLUTE]
    split_ifs <;> (try dsimp only at *) <;> refine ⟨by omega, by omega, by omega, by omega⟩

/-- Witness for C8: the amended update law on the fresh 1024x768 state
with a relative motion of (2, 5). -/
theorem c8_mouse_coordinate_update_witness :
    0 ≤ (initState 1024 768).width ∧ 0 ≤ (initState 1024 768).height ∧
    ((handle_mouse_event (initState 1024 768) YUTANI_MOUSE_EVENT_TYPE_RELATIVE ⟨0, 2, 5⟩).mouse_x =
      min ((initState 1024 768).width * MOUSE_SCALE)
        (max 0 ((initState 1024 768).mouse_x + (2 : Int) * MOUSE_SCALE)) ∧
    (handle_mouse_event (initState 1024 768) YUTANI_MOUSE_EVENT_TYPE_RELATIVE ⟨0, 2, 5⟩).mouse_y =
      min ((initState 1024 768).height * MOUSE_SCALE)
        (max 0 ((initState 1024 768).mouse_y - (5 : Int) * MOUSE_SCALE)) ∧
    (handle_mouse_event (initState 1024 768) YUTANI_MOUSE_EVENT_TYPE_ABSOLUTE ⟨0, 2, 5⟩).mouse_x =
      min ((initState 1024 768).width * MOUSE_SCALE) (max 0 ((2 : Int) * MOUSE_SCALE)) ∧
    (handle_mouse_event (initState 1024 768) YUTANI_MOUSE_EVENT_TYPE_ABSOLUTE ⟨0, 2, 5⟩).mouse_y =
      min ((initState 1024 768).height * MOUSE_SCALE) (max 0 ((5 : Int) * MOUSE_SCALE)) ∧
    (∀ mtype, 0 ≤ (handle_mouse_event (initState 1024 768) mtype ⟨0, 2, 5⟩).mouse_x ∧
      (handle_mouse_event (initState 1024 768) mtype ⟨0, 2, 5⟩).mouse_x ≤
        (initState 1024 768).width * MOUSE_SCALE ∧
      0 ≤ (handle_mouse_event (initState 1024 768) mtype ⟨0, 2, 5⟩).mouse_y ∧
      (handle_mouse_event (initState 1024 768) mtype ⟨0, 2, 5⟩).mouse_y ≤
        (initState 1024 768).height * MOUSE_SCALE)) :=
  ⟨by decide, by decide,
    c8_mouse_coordinate_update (initState 1024 768) ⟨0, 2, 5⟩ (by decide) (by decide)⟩

/-- Counterexample for C8 as frozen: on the fresh 100x100 state the
pointer starts at y = 150; a relative motion with y difference 1 moves
it to 147 = 150 - 3, not to 153 = 150 + 3 as the claim says. -/
theorem c8_counterexample :
    (handle_mouse_event (initState 100 100) YUTANI_MOUSE_EVENT_TYPE_RELATIVE ⟨0, 0, 1⟩).mouse_y =
      147 ∧
    (initState 100 100).mouse_y = 150 ∧ ((147 : Int) ≠ 150 + 3 * 1) := by
  refine ⟨?_, by decide, by decide⟩
  rw [show (handle_mouse_event (initState 100 100) YUTANI_MOUSE_EVENT_TYPE_RELATIVE
    ⟨0, 0, 1⟩).mouse_y = ((mouse_coord_update (initState 100 100)
      YUTANI_MOUSE_EVENT_TYPE_RELATIVE ⟨0, 0, 1⟩).mouse_y) from
    (mouse_fsm_mouse _ _).2]
  decide

/-- make_top leaves heap, bottom tier, focus and mouse window alone. -/
theorem make_top_core (yg : YutaniGlobals) (wid : Nat) :
    (make_top yg wid).heap = yg.heap ∧ (make_top yg wid).bottom_z = yg.bottom_z ∧
    (make_top yg wid).focused_window = yg.focused_window ∧
    (make_top yg wid).mouse_window = yg.mouse_window ∧
    (make_top yg wid).mouse_state = yg.mouse_state := by
  unfold make_top
  cases getWinH yg wid
  · exact ⟨rfl, rfl, rfl, rfl, rfl⟩
  · dsimp only
    split_ifs <;> exact ⟨rfl, rfl, rfl, rfl, rfl⟩

/-- set_focused_window leaves the heap and bottom tier alone. -/
theorem set_focused_window_hb (yg : YutaniGlobals) (w : Option Nat) :
    (set_focused_window yg w).heap = yg.heap ∧
    (set_focused_window yg w).bottom_z = yg.bottom_z := by
  unfold set_focused_window
  split_ifs
  · exact ⟨rfl, rfl⟩
  · rcases hf : yg.focused_window with _ | f
    · dsimp only
      repeat' split
      all_goals simp only [notify_subscribers, sendTo, make_top_core, and_self]
    · rcases hg : getWinH yg f with _ | fw
      · dsimp only
        repeat' split
        all_goals simp only [notify_subscribers, sendTo, make_top_core, and_self]
      · dsimp only
        repeat' split
        all_goals simp only [notify_subscribers, sendTo, make_top_core, and_self]

/-- Focusing an existent target records exactly that target. -/
theorem set_focused_window_focused_some (yg : YutaniGlobals) (t : Nat) :
    (set_focused_window yg (some t)).focused_window = some t := by
  unfold set_focused_window
  split_ifs with h1
  · exact h1.symm
  · rcases hf : yg.focused_window with _ | f
    · dsimp only
      repeat' split
      all_goals simp only [notify_subscribers, sendTo, make_top_core]
    · rcases hg : getWinH yg f with _ | fw
      · dsimp only
        repeat' split
        all_goals simp only [notify_subscribers, sendTo, make_top_core]
      · dsimp only
        repeat' split
        all_goals simp only [notify_subscribers, sendTo, make_top_core]

/-- Unfocusing falls back to the bottom window as the focus target. -/
theorem get_focused_sfw_none (yg : YutaniGlobals) :
    get_focused (set_focused_window yg none) = yg.bottom_z := by
  unfold set_focused_window
  split_ifs with h1
  · unfold get_focused
    rw [← h1]
  · rcases hf : yg.focused_window with _ | f
    · exact absurd hf.symm h1
    · rcases hg : getWinH yg f with _ | fw
      · unfold get_focused
        dsimp only
        simp only [hg]
        cases hbv : yg.bottom_z
        · rfl
        · rfl
      · unfold get_focused
        dsimp only
        simp only [hg, sendTo]
        cases hbv : yg.bottom_z
        · rfl
        · rfl

/-- The focus target after a successful set is returned by get_focused. -/
theorem get_focused_sfw_some (yg : YutaniGlobals) (t : Nat) :
    get_focused (set_focused_window yg (some t)) = some t := by
  unfold get_focused
  rw [set_focused_window_focused_some]

/-- Window lookup ignores the mouse window field. -/
theorem getWinH_mouse_window_update (A : YutaniGlobals) (v : Option Nat) (t : Nat) :
    getWinH { A with mouse_window := v } t = getWinH A t := rfl

/-- Window lookup is unchanged by focus changes. -/
theorem getWinH_sfw (yg : YutaniGlobals) (w : Option Nat) (t : Nat) :
    getWinH (set_focused_window yg w) t = getWinH yg t := by
  unfold getWinH
  rw [(set_focused_window_hb yg w).1]

/-- Unfocusing with an empty bottom tier clears the focus pointer. -/
theorem sfw_focused_none (yg : YutaniGlobals) (hb : yg.bottom_z = none) :
    (set_focused_window yg none).focused_window = none := by
  unfold set_focused_window
  split_ifs with h1
  · exact h1.symm
  · rcases hf : yg.focused_window with _ | f
    · exact absurd hf.symm h1
    · rcases hg : getWinH yg f with _ | fw
      · dsimp only
        simp only [hg, notify_subscribers, hb]
      · dsimp only
        simp only [hg, notify_subscribers, sendTo, hb]

/-- The window put into MOVING state by mouse_start_drag is the window
selected by the hit test at the pointer, which also becomes focused. -/
theorem mouse_start_drag_spec {yg : YutaniGlobals} (h : WF yg) :
    (mouse_start_drag yg).mouse_state = YUTANI_MOUSE_STATE_MOVING →
      (mouse_start_drag yg).mouse_window =
        top_at yg (u16 (cdiv yg.mouse_x MOUSE_SCALE)) (u16 (cdiv yg.mouse_y MOUSE_SCALE)) ∧
      (mouse_start_drag yg).focused_window = (mouse_start_drag yg).mouse_window := by
  obtain ⟨ha, hnd, hc, hbz, htz, hd1, hd2⟩ := h
  unfold mouse_start_drag
  unfold set_focused_at
  dsimp only
  rcases hT : top_at yg (u16 (cdiv yg.mouse_x MOUSE_SCALE)) (u16 (cdiv yg.mouse_y MOUSE_SCALE))
    with _ | t
  · simp only [get_focused_sfw_none]
    rcases hbv : yg.bottom_z with _ | b
    · intro hmv
      refine ⟨rfl, ?_⟩
      simp only [sfw_focused_none yg hbv]
    · simp only [getWinH_mouse_window_update, getWinH_sfw]
      have hZ := hbz b (by rw [hbv]; simp)
      rcases hgw : getWinH yg b with _ | wb
      · simp [getZ, hgw] at hZ
      · have hwz : wb.z = YUTANI_ZORDER_BOTTOM := by
          unfold getZ at hZ
          rw [hgw] at hZ
          exact Option.some.inj (by simpa using hZ)
        simp only [hgw]
        split_ifs with hzc
        · intro hmv
          dsimp only at hmv
          exact absurd hmv (by decide)
        · exact absurd (Or.inl hwz) hzc
  · simp only [get_focused_sfw_some]
    simp only [getWinH_mouse_window_update, getWinH_sfw]
    rcases hgw : getWinH yg t with _ | mwin
    · simp only [hgw]
      intro hmv
      refine ⟨trivial, ?_⟩
      simp only [set_focused_window_focused_some]
    · simp only [hgw]
      split_ifs with hzc
      · intro hmv
        dsimp only at hmv
        exact absurd hmv (by decide)
      · intro hmv
        refine ⟨?_, ?_⟩
        · simp only [make_top_core]
        · simp only [make_top_core, set_focused_window_focused_some]

/-- C10: a WINDOW_DRAG_START whose wid names an existing window runs
exactly mouse_start_drag, which ignores the wid; the window that enters
the MOVING state is the one selected by hit-testing at the current
pointer position, and it becomes the focused window. -/
theorem c10_drag_start_uses_hit_test {yg : YutaniGlobals} (h : WF yg) {src wid : Nat}
    {w : SWindow} (hw : hashGet yg wid = some w) :
    handle_packet yg (Packet.msg src YUTANI_MSG__MAGIC (YMsg.window_drag_start wid)) =
      mouse_start_drag yg ∧
    ((mouse_start_drag yg).mouse_state = YUTANI_MOUSE_STATE_MOVING →
      (mouse_start_drag yg).mouse_window =
        top_at yg (u16 (cdiv yg.mouse_x MOUSE_SCALE)) (u16 (cdiv yg.mouse_y MOUSE_SCALE)) ∧
      (mouse_start_drag yg).focused_window = (mouse_start_drag yg).mouse_window) := by
  constructor
  · unfold handle_packet handle_msg
    dsimp only
    split_ifs with hmag
    · exact absurd rfl hmag
    · simp only [hw]
  · exact mouse_start_drag_spec h

/-- Witness for C10: dragState has windows 1 (away from the pointer)
and 2 (under the pointer); a drag-start naming window 1 still exists
and the theorem applies. -/
theorem c10_drag_start_uses_hit_test_witness :
    WF dragState ∧ hashGet dragState 1 = some (mkWin 1 7 700 500 100 100 1 255) ∧
    (handle_packet dragState (Packet.msg 7 YUTANI_MSG__MAGIC (YMsg.window_drag_start 1)) =
      mouse_start_drag dragState ∧
    ((mouse_start_drag dragState).mouse_state = YUTANI_MOUSE_STATE_MOVING →
      (mouse_start_drag dragState).mouse_window =
        top_at dragState (u16 (cdiv dragState.mouse_x MOUSE_SCALE))
          (u16 (cdiv dragState.mouse_y MOUSE_SCALE)) ∧
      (mouse_start_drag dragState).focused_window =
        (mouse_start_drag dragState).mouse_window)) :=
  ⟨by decide, rfl, c10_drag_start_uses_hit_test (by decide) rfl⟩

/-- A hashmap hit is a heap hit. -/
theorem getWinH_eq_of_hashGet {yg : YutaniGlobals} {wid : Nat} {w : SWindow}
    (h : hashGet yg wid = some w) : getWinH yg wid = some w := by
  unfold hashGet at h
  split_ifs at h
  exact h

/-- A hashmap hit means the wid is registered. -/
theorem mem_wids_of_hashGet {yg : YutaniGlobals} {wid : Nat} {w : SWindow}
    (h : hashGet yg wid = some w) : wid ∈ yg.wids_to_windows := by
  unfold hashGet at h
  split_ifs at h with h1
  exact h1

/-- A registered heap hit is a hashmap hit. -/
theorem hashGet_of_getWinH {yg : YutaniGlobals} {wid : Nat} {w : SWindow}
    (hm : wid ∈ yg.wids_to_windows) (h : getWinH yg wid = some w) :
    hashGet yg wid = some w := by
  unfold hashGet
  rw [if_pos hm]
  exact h

/-- server_window_resize on a window without a pending handshake:
allocate the next buffer id, give it a fresh shm region, and record it
as the pending new buffer; nothing else changes. -/
theorem resize_fresh_spec {yg : YutaniGlobals} {wid : Nat} {w : SWindow} (W H : Int)
    (hgw : getWinH yg wid = some w) (hpend : w.newbufid = 0) :
    (server_window_resize yg wid W H).2 = yg.next_bufid ∧
    getWinH (server_window_resize yg wid W H).1 wid =
      some { w with newbufid := yg.next_bufid, newbuffer := yg.next_bufid } ∧
    (server_window_resize yg wid W H).1.shm = addKey yg.shm yg.next_bufid ∧
    (server_window_resize yg wid W H).1.sent = yg.sent ∧
    (server_window_resize yg wid W H).1.wids_to_windows = yg.wids_to_windows := by
  have hgw2 : lookupWin yg.heap wid = some w := hgw
  unfold server_window_resize
  rw [hgw]
  dsimp only
  rw [if_neg (by rw [hpend]; exact fun hcon => hcon rfl)]
  dsimp only [setWin]
  refine ⟨rfl, ?_, rfl, rfl, rfl⟩
  unfold getWinH
  dsimp only
  rw [lookupWin_setWinHeap, if_pos rfl, hgw2]
  rfl

/-- server_window_resize_finish on a window with a pending handshake:
install the new size, promote the new buffer and its id, clear the
pending fields, and release exactly the old shm region. -/
theorem resize_finish_spec {yg : YutaniGlobals} {wid : Nat} {w : SWindow} (W H : Int)
    (hgw : getWinH yg wid = some w) (hpend : w.newbufid ≠ 0) :
    getWinH (server_window_resize_finish yg wid W H) wid =
      some { w with width := W, height := H, bufid := w.newbufid, newbufid := 0,
                    buffer := w.newbuffer, newbuffer := 0 } ∧
    (server_window_resize_finish yg wid W H).shm = yg.shm.erase w.bufid ∧
    (server_window_resize_finish yg wid W H).wids_to_windows = yg.wids_to_windows := by
  have hgw2 : lookupWin yg.heap wid = some w := hgw
  unfold server_window_resize_finish
  rw [hgw]
  dsimp only
  rw [if_neg hpend]
  dsimp only [mark_window, pushDamage, setWin]
  refine ⟨?_, ?_, ?_⟩
  · unfold getWinH
    rw [markWid_heap]
    dsimp only
    rw [lookupWin_setWinHeap, if_pos rfl, lookupWin_setWinHeap, if_pos rfl, hgw2]
    rfl
  · rw [markWid_shm]
  · rw [markWid_wids]

/-- C4: the completed resize handshake.  After RESIZE_ACCEPT the server
answers RESIZE_BUFID carrying the freshly allocated buffer id, and
after RESIZE_DONE the window carries the new size, its active buffer
and bufid are the new ones, the pending id is cleared, the old shm
region is released and the new one is live. -/
theorem c4_resize_handshake {yg : YutaniGlobals} {wid : Nat} {w : SWindow} (src : Nat) (W H : Int)
    (hw : hashGet yg wid = some w) (hpend : w.newbufid = 0)
    (hnd : yg.shm.Nodup) (hfresh : yg.next_bufid ∉ yg.shm)
    (hbne : w.bufid ≠ yg.next_bufid) (hnz : yg.next_bufid ≠ 0) :
    (⟨some src, MsgOut.resize YUTANI_MSG_RESIZE_BUFID w.wid W H yg.next_bufid⟩ : Sent) ∈
      (handle_packet yg (Packet.msg src YUTANI_MSG__MAGIC (YMsg.resize_accept wid W H))).sent ∧
    getWinH (handle_packet
        (handle_packet yg (Packet.msg src YUTANI_MSG__MAGIC (YMsg.resize_accept wid W H)))
        (Packet.msg src YUTANI_MSG__MAGIC (YMsg.resize_done wid W H))) wid =
      some { w with width := W, height := H, bufid := yg.next_bufid, newbufid := 0,
                    buffer := yg.next_bufid, newbuffer := 0 } ∧
    w.bufid ∉ (handle_packet
        (handle_packet yg (Packet.msg src YUTANI_MSG__MAGIC (YMsg.resize_accept wid W H)))
        (Packet.msg src YUTANI_MSG__MAGIC (YMsg.resize_done wid W H))).shm ∧
    yg.next_bufid ∈ (handle_packet
        (handle_packet yg (Packet.msg src YUTANI_MSG__MAGIC (YMsg.resize_accept wid W H)))
        (Packet.msg src YUTANI_MSG__MAGIC (YMsg.resize_done wid W H))).shm := by
  have hgw := getWinH_eq_of_hashGet hw
  have hmem := mem_wids_of_hashGet hw
  obtain ⟨e1, e2, e3, e4, e5⟩ := resize_fresh_spec W H hgw hpend
  have hA1 : handle_packet yg (Packet.msg src YUTANI_MSG__MAGIC (YMsg.resize_accept wid W H)) =
      sendTo (server_window_resize yg wid W H).1 src
        (MsgOut.resize YUTANI_MSG_RESIZE_BUFID w.wid W H (server_window_resize yg wid W H).2) := by
    unfold handle_packet handle_msg
    dsimp only
    split_ifs with hmag
    · exact absurd rfl hmag
    · simp only [hw]
  have hA1sent : (handle_packet yg
      (Packet.msg src YUTANI_MSG__MAGIC (YMsg.resize_accept wid W H))).sent =
      yg.sent ++ [⟨some src, MsgOut.resize YUTANI_MSG_RESIZE_BUFID w.wid W H yg.next_bufid⟩] := by
    rw [hA1, e1]
    dsimp only [sendTo]
    rw [e4]
  have hA1get : getWinH (handle_packet yg
      (Packet.msg src YUTANI_MSG__MAGIC (YMsg.resize_accept wid W H))) wid =
      some { w with newbufid := yg.next_bufid, newbuffer := yg.next_bufid } := by
    rw [hA1]
    unfold getWinH sendTo
    dsimp only
    exact e2
  have hA1wids : (handle_packet yg
      (Packet.msg src YUTANI_MSG__MAGIC (YMsg.resize_accept wid W H))).wids_to_windows =
      yg.wids_to_windows := by
    rw [hA1]
    dsimp only [sendTo]
    exact e5
  have hA1shm : (handle_packet yg
      (Packet.msg src YUTANI_MSG__MAGIC (YMsg.resize_accept wid W H))).shm =
      addKey yg.shm yg.next_bufid := by
    rw [hA1]
    dsimp only [sendTo]
    exact e3
  have hA1hash : hashGet (handle_packet yg
      (Packet.msg src YUTANI_MSG__MAGIC (YMsg.resize_accept wid W H))) wid =
      some { w with newbufid := yg.next_bufid, newbuffer := yg.next_bufid } :=
    hashGet_of_getWinH (by rw [hA1wids]; exact hmem) hA1get
  have hA2 : handle_packet
      (handle_packet yg (Packet.msg src YUTANI_MSG__MAGIC (YMsg.resize_accept wid W H)))
      (Packet.msg src YUTANI_MSG__MAGIC (YMsg.resize_done wid W H)) =
      server_window_resize_finish
        (handle_packet yg (Packet.msg src YUTANI_MSG__MAGIC (YMsg.resize_accept wid W H)))
        wid W H := by
    set A1 := handle_packet yg (Packet.msg src YUTANI_MSG__MAGIC (YMsg.resize_accept wid W H))
      with hA1def
    unfold handle_packet handle_msg
    dsimp only
    split_ifs with hmag
    · exact absurd rfl hmag
    · simp only [hA1hash]
  obtain ⟨f1, f2, f3⟩ := resize_finish_spec W H hA1get
    (show ({ w with newbufid := yg.next_bufid, newbuffer := yg.next_bufid } : SWindow).newbufid ≠ 0
      from hnz)
  have hnd2 : (yg.shm ++ [yg.next_bufid]).Nodup := by
    rw [List.nodup_append]
    refine ⟨hnd, List.nodup_singleton _, ?_⟩
    intro a haa hab
    simp at hab
    subst hab
    exact hfresh haa
  refine ⟨?_, ?_, ?_, ?_⟩
  · rw [hA1sent]
    exact List.mem_append_right _ (List.mem_singleton_self _)
  · rw [hA2, f1]
  · rw [hA2, f2, hA1shm]
    dsimp only
    unfold addKey
    rw [if_neg hfresh]
    intro hmemc
    exact ((hnd2.mem_erase_iff).mp hmemc).1 rfl
  · rw [hA2, f2, hA1shm]
    dsimp only
    unfold addKey
    rw [if_neg hfresh]
    exact (List.mem_erase_of_ne (fun e => hbne e.symm)).mpr
      (List.mem_append_right _ (by simp))

/-- Witness for C4: the full handshake on oneWinState (window 1, buffer
1, next buffer id 2) at new size 500x400. -/
theorem c4_resize_handshake_witness :
    hashGet oneWinState 1 = some (mkWin 1 7 0 0 400 300 1 0) ∧
    (mkWin 1 7 0 0 400 300 1 0).newbufid = 0 ∧
    oneWinState.shm.Nodup ∧ oneWinState.next_bufid ∉ oneWinState.shm ∧
    (mkWin 1 7 0 0 400 300 1 0).bufid ≠ oneWinState.next_bufid ∧
    oneWinState.next_bufid ≠ 0 ∧
    ((⟨some 7, MsgOut.resize YUTANI_MSG_RESIZE_BUFID (mkWin 1 7 0 0 400 300 1 0).wid 500 400
        oneWinState.next_bufid⟩ : Sent) ∈
      (handle_packet oneWinState
        (Packet.msg 7 YUTANI_MSG__MAGIC (YMsg.resize_accept 1 500 400))).sent ∧
    getWinH (handle_packet
        (handle_packet oneWinState (Packet.msg 7 YUTANI_MSG__MAGIC (YMsg.resize_accept 1 500 400)))
        (Packet.msg 7 YUTANI_MSG__MAGIC (YMsg.resize_done 1 500 400))) 1 =
      some { mkWin 1 7 0 0 400 300 1 0 with
             width := 500, height := 400, bufid := oneWinState.next_bufid, newbufid := 0,
             buffer := oneWinState.next_bufid, newbuffer := 0 } ∧
    (mkWin 1 7 0 0 400 300 1 0).bufid ∉ (handle_packet
        (handle_packet oneWinState (Packet.msg 7 YUTANI_MSG__MAGIC (YMsg.resize_accept 1 500 400)))
        (Packet.msg 7 YUTANI_MSG__MAGIC (YMsg.resize_done 1 500 400))).shm ∧
    oneWinState.next_bufid ∈ (handle_packet
        (handle_packet oneWinState (Packet.msg 7 YUTANI_MSG__MAGIC (YMsg.resize_accept 1 500 400)))
        (Packet.msg 7 YUTANI_MSG__MAGIC (YMsg.resize_done 1 500 400))).shm) :=
  ⟨rfl, rfl, by decide, by decide, by decide, by decide,
    c4_resize_handshake 7 500 400 rfl rfl (by decide) (by decide) (by decide) (by decide)⟩

end Yutani
